import Mathlib

namespace Mafia

/-!
Shallow embedding of the Mafia game orchestrator (`game_state.py`,
`game_orchestrator.py`, `role_agents.py`, `llm_interface.py`) and proofs
about its win evaluator, night resolver, voting state machine and
discussion scheduler.  External LLM decisions are modelled as oracle
inputs; all orchestrator logic is translated directly from the source.
-/

/-- `Role` enum from `game_state.py`. -/
inductive Role where
  | mafia
  | doctor
  | detective
  | villager
  deriving DecidableEq, Repr

/-- String value of a role, mirroring `Role(Enum)` values in `game_state.py`. -/
def Role.value : Role → String
  | .mafia => "mafia"
  | .doctor => "doctor"
  | .detective => "detective"
  | .villager => "villager"

/-- `GamePhase` enum from `game_state.py`. -/
inductive GamePhase where
  | night
  | day_discussion
  | day_voting
  | day_defense
  | day_final_voting
  | game_over
  deriving DecidableEq, Repr

/-- `Player` dataclass from `game_state.py`. -/
structure Player where
  name : String
  personality : String := ""
  role : Role
  is_alive : Bool := true
  votes_received : Nat := 0
  deriving DecidableEq, Repr

/-- `GameState.get_mafia_players`: alive players whose role is MAFIA. -/
def getMafiaPlayers (players : List Player) : List Player :=
  players.filter (fun p => p.role == Role.mafia && p.is_alive)

/-- `GameState.get_village_players`: alive players whose role is not MAFIA. -/
def getVillagePlayers (players : List Player) : List Player :=
  players.filter (fun p => !(p.role == Role.mafia) && p.is_alive)

/-- `GameState.check_win_condition` from `game_state.py` lines 81-108,
translated clause by clause. -/
def check_win_condition (players : List Player) : Option String :=
  let mafia_alive := (getMafiaPlayers players).length
  let village_alive := (getVillagePlayers players).length
  let total_alive := mafia_alive + village_alive
  if mafia_alive = 0 then
    some "village"
  else if mafia_alive > village_alive then
    some "mafia"
  else if mafia_alive = village_alive then
    if total_alive = 2 then
      match getVillagePlayers players with
      | [remaining_villager] =>
        if remaining_villager.role = Role.doctor then some "tie" else some "mafia"
      | _ => none
    else if total_alive = 4 ∧ mafia_alive = 2 then
      if (getVillagePlayers players).any (fun p => p.role == Role.doctor) then
        none
      else
        some "mafia"
    else none
  else none

/-- The win rule exactly as the claim states it: village when no killer is
alive; mafia when killers strictly outnumber the others; on equal counts
with two alive, tie for a sole doctor and mafia otherwise; on equal counts
with four alive, mafia if no doctor remains and none otherwise; none in
every other case.  Written from the claim's words, to be compared with
`check_win_condition`. -/
def claimWinEvaluator (players : List Player) : Option String :=
  let killers := (getMafiaPlayers players).length
  let others := (getVillagePlayers players).length
  if killers = 0 then
    some "village"
  else if others < killers then
    some "mafia"
  else if killers = others ∧ killers + others = 2 then
    match getVillagePlayers players with
    | [soleOther] => if soleOther.role = Role.doctor then some "tie" else some "mafia"
    | _ => none
  else if killers = others ∧ killers + others = 4 then
    if (getVillagePlayers players).any (fun p => p.role == Role.doctor) then none
    else some "mafia"
  else none

/-! ## Records and the game-state aggregate -/

/-- `GameAction` dataclass (timestamp omitted as pure metadata). -/
structure GameActionE where
  player_name : String
  action_type : String
  target : Option String := none
  message : Option String := none
  round_number : Nat := 1
  deriving DecidableEq, Repr

/-- One entry of `player_night_actions` (see `_track_player_night_action`). -/
structure NightActionRec where
  round : Nat
  action_type : String
  target : String
  reason : String
  deriving DecidableEq, Repr

/-- An initial-vote entry of a voting-history record. -/
structure VoteRec where
  voter : String
  target : String
  reason : String
  deriving DecidableEq, Repr

/-- A final-vote entry of a voting-history record; the target can be
Python `None` when no candidate exists. -/
structure FinalVoteRec where
  voter : String
  target : Option String
  reason : String
  deriving DecidableEq, Repr

/-- One `current_voting_round` dict of `_run_voting_phase`; optional keys
of the Python dict become `Option` fields. -/
structure VotingRoundRec where
  round : Nat
  voting_round : Nat
  votes : List VoteRec := []
  final_votes : List FinalVoteRec := []
  trial_candidate : Option String := none
  defense : Option String := none
  eliminated : Option String := none
  tied_candidates : Option (List String) := none
  tie_votes : Option Nat := none
  deriving DecidableEq, Repr

/-- One discussion transcript entry (a `GameAction` with type `discussion`). -/
structure DiscussionMsg where
  player_name : String
  comment : String
  round_number : Nat
  deriving DecidableEq, Repr

/-- The mutable `GameState` aggregate from `game_state.py`. -/
structure GameState where
  players : List Player := []
  phase : GamePhase := GamePhase.night
  round_number : Nat := 1
  alive_players : List String := []
  dead_players : List String := []
  mafia_members : List String := []
  mafia_target : Option String := none
  doctor_save : Option String := none
  detective_check : Option String := none
  detective_results : List (String × String) := []
  discussion_messages : List DiscussionMsg := []
  votes : List (String × String) := []
  vote_counts : List (String × Nat) := []
  suspects_on_trial : List String := []
  action_history : List GameActionE := []
  elimination_history : List String := []
  player_night_actions : List (String × List NightActionRec) := []
  voting_history : List VotingRoundRec := []
  winner : Option String := none
  deriving Repr

/-! ### Insertion-ordered dictionaries

Python `dict`s preserve insertion order; assigning to an existing key
keeps its position, a new key is appended.  All dicts the claims touch
(`votes`, `vote_counts`, `detective_results`, `speaking_counts`) are
modelled as association lists with these update rules. -/

/-- `d[k] = v` on an insertion-ordered dict. -/
def dictInsert {α : Type} : List (String × α) → String → α → List (String × α)
  | [], k, v => [(k, v)]
  | (k', v') :: rest, k, v =>
    if k' == k then (k, v) :: rest else (k', v') :: dictInsert rest k v

/-- `d.get(k, dflt)`. -/
def dictGetD {α : Type} : List (String × α) → String → α → α
  | [], _, dflt => dflt
  | (k', v') :: rest, k, dflt => if k' == k then v' else dictGetD rest k dflt

/-- `d.get(k)` / `k in d`. -/
def dictGet? {α : Type} : List (String × α) → String → Option α
  | [], _ => none
  | (k', v') :: rest, k => if k' == k then some v' else dictGet? rest k

/-! ## Night resolution (`_resolve_night_actions`, `_eliminate_player`) -/

/-- Helper for `_add_action`: an event appended to `action_history`. -/
def mkGameEvent (st : GameState) (action_type msg : String) : GameActionE :=
  { player_name := "Game", action_type := action_type, message := some msg,
    round_number := st.round_number }

/-- Flip `is_alive` on the first player with the given name
(`get_player_by_name` returns the first match and `_eliminate_player`
mutates that object). -/
def setDeadFirst : List Player → String → List Player
  | [], _ => []
  | p :: ps, n =>
    if p.name == n then { p with is_alive := false } :: ps
    else p :: setDeadFirst ps n

/-- `GameOrchestrator._eliminate_player`.  Python's
`alive_players.remove(name)` raises `ValueError` when the name is absent
from `alive_players` (which can happen, since night targets are
unvalidated), aborting the elimination midway; `List.erase` cannot model
the crash, so every theorem about a completed elimination additionally
assumes the target is in `alive_players`, where `erase` and `remove`
agree exactly. -/
def eliminate_player (st : GameState) (player_name : String) : GameState :=
  match st.players.find? (fun p => p.name == player_name) with
  | none => st
  | some _ =>
    { st with
      players := setDeadFirst st.players player_name,
      alive_players := st.alive_players.erase player_name,
      dead_players := st.dead_players ++ [player_name],
      elimination_history := st.elimination_history ++ [player_name],
      action_history := st.action_history ++
        [mkGameEvent st "elimination" (player_name ++ " was eliminated")] }

/-- The public announcement printed when the doctor's save cancels the
kill: a fixed string that never names the saved party. -/
def noOneEliminatedMsg : String := "🌅 No one was eliminated during the night"

/-- The public announcement naming the night's victim. -/
def nightKillMsg (victim : String) : String :=
  "💀 " ++ victim ++ " was eliminated during the night"

/-- `GameOrchestrator._resolve_night_actions`: returns the updated state
together with the list of player-visible announcements.  The Python
`if self.game_state.mafia_target:` test is string truthiness, so an empty
string behaves like `None`. -/
def resolve_night_actions (st : GameState) : GameState × List String :=
  let step : GameState × List String × Option String :=
    match st.mafia_target with
    | some t =>
      if t ≠ "" then
        if st.doctor_save == some t then
          ({ st with action_history := st.action_history ++
              [mkGameEvent st "night_save" (t ++ " was saved from elimination")] },
           [noOneEliminatedMsg], none)
        else
          (eliminate_player st t, [nightKillMsg t], some t)
      else (st, [], none)
    | none => (st, [], none)
  let (st', ann, eliminated) := step
  ({ st' with action_history := st'.action_history ++
      [mkGameEvent st "night_summary"
        ("Night " ++ toString st.round_number ++ " completed. " ++
          (match eliminated with
           | some e => e ++ " eliminated"
           | none => "No one eliminated"))] },
   ann)

/-! ## Night actions (`_mafia_night_action`, `_detective_night_action`) -/

/-- A night decision dict returned by a collaborator: the `target` key is
present, the `reason` key may be missing (`decision.get('reason', ...)`).
A request whose decision is `None` or lacks `target` is modelled as
`Option.none` at the call site. -/
structure NightDec where
  target : String
  reason : Option String := none
  deriving DecidableEq, Repr

/-- `GameOrchestrator._track_player_night_action`. -/
def trackNightAction (st : GameState) (player action_type target reason : String) :
    GameState :=
  let action_record : NightActionRec :=
    { round := st.round_number, action_type := action_type,
      target := target, reason := reason }
  let updated := dictGetD st.player_night_actions player [] ++ [action_record]
  { st with player_night_actions := dictInsert st.player_night_actions player updated }

/-- Keys of a `collections.Counter` built from a list, in first-encounter
order (Python dicts preserve insertion order). -/
def firstOccurrences : List String → List String
  | [] => []
  | t :: ts => t :: (firstOccurrences ts).filter (fun u => !(u == t))

/-- Number of occurrences of `t` in `ts` (a `Counter` count). -/
def countOcc (ts : List String) (t : String) : Nat :=
  (ts.filter (fun u => u == t)).length

/-- One step of scanning counter keys for the best-count key; a later key
replaces the current best only on a strictly larger count, matching the
stable sort inside `Counter.most_common`. -/
def pickMaxStep (f : String → Nat) (acc : Option String) (t : String) : Option String :=
  match acc with
  | none => some t
  | some b => if f t > f b then some t else some b

/-- `Counter(ts).most_common(1)` reduced to its single winner:
the first-encountered element with the maximal count. -/
def mostCommon1 (ts : List String) : Option String :=
  (firstOccurrences ts).foldl (pickMaxStep (countOcc ts)) none

/-- The proposed targets of a mafia response list: proposals whose
decision is present (`if decision and 'target' in decision`). -/
def proposalsOf (responses : List (String × Option NightDec)) :
    List (String × NightDec) :=
  responses.filterMap (fun nr => nr.2.map (fun d => (nr.1, d)))

/-- `GameOrchestrator._mafia_night_action`, with the per-member decisions
supplied as an input list (one entry per alive mafia member, in request
order). -/
def mafiaNightAction (responses : List (String × Option NightDec))
    (st : GameState) : GameState :=
  let proposals := proposalsOf responses
  let st1 := proposals.foldl
    (fun s nd => trackNightAction s nd.1 "mafia_propose" nd.2.target
      (nd.2.reason.getD "No reason given")) st
  let targets := proposals.map (fun nd => nd.2.target)
  if proposals.isEmpty then st1
  else
    match mostCommon1 targets with
    | some t => { st1 with mafia_target := some t }
    | none => st1

/-- `GameOrchestrator._detective_night_action`, with the detective's name
and decision supplied as inputs (`none` when no alive detective exists or
the decision lacks a target). -/
def detectiveNightAction (detectiveName : String) (decision : Option NightDec)
    (st : GameState) : GameState :=
  match decision with
  | none => st
  | some d =>
    let st1 := { st with detective_check := some d.target }
    match st1.players.find? (fun p => p.name == d.target) with
    | none => st1
    | some target_player =>
      let results := dictInsert st1.detective_results d.target target_player.role.value
      let st2 := { st1 with detective_results := results }
      trackNightAction st2 detectiveName "detective_investigate" d.target
        (d.reason.getD "No reason given" ++ " (found: " ++ target_player.role.value ++ ")")

/-- The targets proposed by the killer faction during one night. -/
def targetsOf (responses : List (String × Option NightDec)) : List String :=
  (proposalsOf responses).map (fun nd => nd.2.target)

/-- Example night state: the mafia target "Ann" and the doctor saves "Ann". -/
def exSaveState : GameState :=
  { players := [{ name := "Ann", role := Role.villager },
                { name := "Mel", role := Role.mafia }],
    alive_players := ["Ann", "Mel"],
    mafia_target := some "Ann",
    doctor_save := some "Ann" }

/-- Example night state: the mafia target the alive "Ann", the doctor
saves "Mel". -/
def exKillState : GameState :=
  { players := [{ name := "Ann", role := Role.villager },
                { name := "Mel", role := Role.mafia }],
    alive_players := ["Ann", "Mel"],
    mafia_target := some "Ann",
    doctor_save := some "Mel" }

/-- Night state with two alive mafia members for the C9 counterexample. -/
def exMafiaState : GameState :=
  { players := [{ name := "M1", role := Role.mafia },
                { name := "M2", role := Role.mafia },
                { name := "Vic", role := Role.villager },
                { name := "Dora", role := Role.doctor, is_alive := false }],
    alive_players := ["M1", "M2", "Vic"],
    dead_players := ["Dora"],
    mafia_members := ["M1", "M2"] }

/-! ## Voting machinery (`_run_voting_phase`, `_run_final_voting`,
`role_agents.vote`) -/

/-- Python `str.lower()`. -/
def pyLower (s : String) : String := ⟨s.data.map Char.toLower⟩

/-- Whether the first character list is an initial segment of the second. -/
def leadsWith : List Char → List Char → Bool
  | [], _ => true
  | _ :: _, [] => false
  | a :: as, b :: bs => a == b && leadsWith as bs

/-- Whether the first character list occurs contiguously inside the
second (Python `needle in hay` on strings). -/
def occursIn (needle : List Char) : List Char → Bool
  | [] => needle.isEmpty
  | c :: rest => leadsWith needle (c :: rest) || occursIn needle rest

/-- `candidate.lower() in raw.lower()`: the case-insensitive substring
test used by every vote-validation loop. -/
def pyInStr (candidate raw : String) : Bool :=
  occursIn (pyLower candidate).data (pyLower raw).data

/-- `VoteDecision` dataclass from `structured_responses.py`. -/
structure VoteDecision where
  target : String
  reason : String
  deriving DecidableEq, Repr

/-- The default instance `generate_structured_response` builds when the
request errors or the response parses to nothing: every string field
becomes the empty string. -/
def errorVoteDecision : VoteDecision := { target := "", reason := "" }

/-- The in-agent vote validation shared by all `role_agents.vote`
methods (e.g. `role_agents.py` lines 84-94): keep an in-candidates
target, otherwise scan for the first candidate whose lowercase name is a
substring of the lowercase returned target, falling back to the first
candidate.  (With zero candidates Python would raise on `candidates[0]`;
that path is unreachable while at least two players live.) -/
def agent_vote_validate (candidates : List String) (vd : VoteDecision) :
    VoteDecision :=
  if candidates.contains vd.target then vd
  else
    match candidates with
    | [] => vd
    | c0 :: _ =>
      { vd with target := (candidates.find? (fun c => pyInStr c vd.target)).getD c0 }

/-- The orchestrator's initial-voting validation (`_run_voting_phase`
lines 472-504): returns the tallied `(target, reason)` or `none` when the
vote is silently dropped. -/
def orchInitialValidate (voter : String) (candidates : List String)
    (vd : VoteDecision) : Option (String × String) :=
  if candidates.contains vd.target then some (vd.target, vd.reason)
  else if vd.target == voter then
    match candidates with
    | [] => none
    | c0 :: _ => some (c0, "Cannot vote for self, voting " ++ c0 ++ " instead")
  else none

/-- The orchestrator's final-voting validation (`_run_final_voting`
lines 624-641): returns the Python `vote_target` (possibly `None`)
together with the possibly rewritten reason. -/
def orchFinalValidate (voter : String) (candidates : List String)
    (vd : VoteDecision) : Option String × String :=
  if candidates.contains vd.target then (some vd.target, vd.reason)
  else if vd.target == voter then
    match candidates with
    | [] => (none, "Cannot vote for self, voting None instead")
    | c0 :: _ => (some c0, "Cannot vote for self, voting " ++ c0 ++ " instead")
  else
    match candidates with
    | [] => (none, vd.reason)
    | c0 :: _ =>
      ((candidates.find? (fun c => pyInStr c vd.target)).getD c0, vd.reason)

/-- The collaborator decisions a voting phase consumes, indexed by
voting sub-round and voter: the raw LLM vote decisions for initial and
final voting and the defense text. -/
structure VoteOracle where
  initialRaw : Nat → String → VoteDecision
  finalRaw : Nat → String → VoteDecision
  defenseText : Nat → String → String

/-- `candidates = [p for p in alive_players if p != agent_name]`. -/
def candidatesFor (alive : List String) (voter : String) : List String :=
  alive.filter (fun p => !(p == voter))

/-- Accumulator for one initial voting loop: the `votes`, `vote_counts`
and `vote_reasons` dicts plus the `current_voting_round['votes']` list. -/
structure InitVoteAcc where
  votes : List (String × String) := []
  counts : List (String × Nat) := []
  reasons : List (String × String) := []
  recs : List VoteRec := []
  deriving DecidableEq, Repr

/-- One voter's turn of the initial voting loop. -/
def initialVoteStep (o : VoteOracle) (vr : Nat) (alive : List String)
    (acc : InitVoteAcc) (voter : String) : InitVoteAcc :=
  let candidates := candidatesFor alive voter
  let vote_result := agent_vote_validate candidates (o.initialRaw vr voter)
  match orchInitialValidate voter candidates vote_result with
  | some (t, reason) =>
    { votes := dictInsert acc.votes voter t,
      counts := dictInsert acc.counts t (dictGetD acc.counts t 0 + 1),
      reasons := dictInsert acc.reasons voter reason,
      recs := acc.recs ++ [{ voter := voter, target := t, reason := reason }] }
  | none => acc

/-- The whole initial voting loop of one sub-round. -/
def runInitialVotes (o : VoteOracle) (vr : Nat) (alive : List String) :
    InitVoteAcc :=
  alive.foldl (initialVoteStep o vr alive) {}

/-- Accumulator for one final voting loop; `tallied` lists the targets of
accepted votes in order, for the `votes_received` bumps. -/
structure FinalVoteAcc where
  votes : List (String × String) := []
  counts : List (String × Nat) := []
  reasons : List (String × String) := []
  recs : List FinalVoteRec := []
  tallied : List String := []
  deriving DecidableEq, Repr

/-- One voter's turn of the final voting loop.  The history entry is
appended even when no vote is tallied, mirroring the source. -/
def finalVoteStep (o : VoteOracle) (vr : Nat) (alive : List String)
    (acc : FinalVoteAcc) (voter : String) : FinalVoteAcc :=
  let candidates := candidatesFor alive voter
  let res := orchFinalValidate voter candidates (o.finalRaw vr voter)
  let acc1 :=
    match res.1 with
    | some t =>
      { acc with
        votes := dictInsert acc.votes voter t,
        counts := dictInsert acc.counts t (dictGetD acc.counts t 0 + 1),
        reasons := dictInsert acc.reasons voter res.2,
        tallied := acc.tallied ++ [t] }
    | none => acc
  { acc1 with recs := acc1.recs ++
      [{ voter := voter, target := res.1, reason := res.2 }] }

/-- The whole final voting loop of one sub-round. -/
def runFinalVotes (o : VoteOracle) (vr : Nat) (alive : List String) :
    FinalVoteAcc :=
  alive.foldl (finalVoteStep o vr alive) {}

/-- `GameState.reset_votes`. -/
def reset_votes (st : GameState) : GameState :=
  { st with
      votes := [],
      vote_counts := [],
      players := st.players.map (fun p => { p with votes_received := 0 }) }

/-- Bump `votes_received` on the first player with the given name
(no-op when absent, like `if target_player:`). -/
def bumpReceivedFirst : List Player → String → List Player
  | [], _ => []
  | p :: ps, n =>
    if p.name == n then { p with votes_received := p.votes_received + 1 } :: ps
    else p :: bumpReceivedFirst ps n

/-- Apply the `votes_received` bumps of all accepted final votes. -/
def applyReceived (ps : List Player) (ts : List String) : List Player :=
  ts.foldl bumpReceivedFirst ps

/-- Python `max` over a non-empty list (`0` on the unreachable empty case). -/
def listMaxNat : List Nat → Nat
  | [] => 0
  | x :: xs => xs.foldl max x

/-- `suspects = [name for name, votes in vote_counts.items() if votes == max_votes]`. -/
def maxHolders (counts : List (String × Nat)) : List String :=
  let max_votes := listMaxNat (counts.map Prod.snd)
  (counts.filter (fun kv => kv.2 == max_votes)).map Prod.fst

/-- `GameOrchestrator._run_final_voting`: runs final votes after the
defense and resolves the plurality.  Returns the updated state, the
updated voting-round record and the eliminated player (if unique). -/
def run_final_voting (o : VoteOracle) (vr : Nat) (_suspect : String)
    (alive : List String) (vrd : VotingRoundRec) (st : GameState) :
    GameState × VotingRoundRec × Option String :=
  let st1 := reset_votes { st with phase := GamePhase.day_final_voting }
  let fa := runFinalVotes o vr alive
  let st2 :=
    { st1 with
      votes := fa.votes,
      vote_counts := fa.counts,
      players := applyReceived st1.players fa.tallied }
  let vrd1 := { vrd with final_votes := fa.recs }
  if st2.vote_counts = [] then (st2, vrd1, none)
  else
    match maxHolders st2.vote_counts with
    | [eliminated_player] =>
      (eliminate_player st2 eliminated_player, vrd1, some eliminated_player)
    | _ => (st2, vrd1, none)

/-- One iteration of the `while voting_round <= 3` loop of
`_run_voting_phase`.  Returns the updated state and whether the loop
returns (`true` exactly on the `return` statements of the source). -/
def run_voting_sub_round (o : VoteOracle) (alive : List String) (vr : Nat)
    (st : GameState) : GameState × Bool :=
  let vrd0 : VotingRoundRec := { round := st.round_number, voting_round := vr }
  let st1 := reset_votes st
  let ia := runInitialVotes o vr alive
  let st2 := { st1 with votes := ia.votes, vote_counts := ia.counts }
  let vrd := { vrd0 with votes := ia.recs }
  if st2.vote_counts = [] then (st2, false)
  else
    let suspects := maxHolders st2.vote_counts
    let st3 := { st2 with suspects_on_trial := suspects }
    match suspects with
    | [suspect] =>
      let defense := o.defenseText vr suspect
      let defenseEvent := mkGameEvent st3 "defense" (suspect ++ " defended: " ++ defense)
      let st4 :=
        { st3 with
          phase := GamePhase.day_defense,
          action_history := st3.action_history ++ [defenseEvent] }
      let vrd1 :=
        { vrd with
          trial_candidate := some suspect,
          defense := some defense }
      let result := run_final_voting o vr suspect alive vrd1 st4
      match result.2.2 with
      | some e =>
        let vrdElim := { result.2.1 with eliminated := some e }
        ({ result.1 with
           voting_history := result.1.voting_history ++ [vrdElim] }, true)
      | none => (result.1, false)
    | _ =>
      let max_votes := listMaxNat (st2.vote_counts.map Prod.snd)
      let vrd1 :=
        { vrd with
          tied_candidates := some suspects,
          tie_votes := some max_votes }
      let st4 := { st3 with voting_history := st3.voting_history ++ [vrd1] }
      (st4, vr == 3)

/-- The `while voting_round <= 3` loop, structurally bounded by the
number of remaining iterations. -/
def votingRoundsLoop (o : VoteOracle) (alive : List String) :
    Nat → Nat → GameState → GameState
  | 0, _, st => st
  | Nat.succ n, vr, st =>
    let r := run_voting_sub_round o alive vr st
    if r.2 then r.1 else votingRoundsLoop o alive n (vr + 1) r.1

/-- `GameOrchestrator._run_voting_phase`. -/
def run_voting_phase (o : VoteOracle) (st : GameState) : GameState :=
  let st1 := reset_votes { st with phase := GamePhase.day_voting }
  let alive := (st1.players.filter (fun p => p.is_alive)).map Player.name
  votingRoundsLoop o alive 3 1 st1

/-- The claim's reading of out-of-candidate vote handling, written from
the spec's words: accept only when the target matches exactly one valid
candidate by case-insensitive substring containment, otherwise fall back
to the first candidate. -/
def claimUniqueMatch (candidates : List String) (raw : String) :
    Option String :=
  match candidates with
  | [] => none
  | c0 :: _ =>
    match candidates.filter (fun c => pyInStr c raw) with
    | [m] => some m
    | _ => some c0

/-! ## Discussion scheduler (`_run_discussion_phase`) -/

/-- `DiscussionResponse` dataclass from `structured_responses.py`. -/
structure DiscussionResponseE where
  speak : Bool
  comment : String
  urgency : Int
  deriving DecidableEq, Repr

/-- `adjusted_urgency = max(1, resp.urgency - speak_count * 0.5)`
(lines 380-383), over exact rationals. -/
def adjustedUrgency (urgency : Int) (speak_count : Nat) : ℚ :=
  max 1 ((urgency : ℚ) - (speak_count : ℚ) * (1 / 2))

/-- Build the `speaking_agents` list of one discussion round: collected
responses whose request errored are `none` and are dropped (the
`try/except` returns `(agent, None)`), non-speaking responses are
filtered out, and each speaker is paired with its adjusted urgency. -/
def speakCands (counts : List (String × Nat))
    (resps : List (String × Option DiscussionResponseE)) :
    List (String × DiscussionResponseE × ℚ) :=
  (resps.filterMap (fun nr => nr.2.map (fun r => (nr.1, r)))).filterMap
    (fun nr =>
      if nr.2.speak then
        some (nr.1, nr.2, adjustedUrgency nr.2.urgency (dictGetD counts nr.1 0))
      else none)

/-- The descending sort key of `speaking_agents.sort(key=lambda x:
(x[2], random.random()), reverse=True)`: `a` precedes `b` when its
adjusted urgency is larger, or equal with a not-smaller random draw. -/
def speakerRel (rnd : String → ℚ) (a b : String × DiscussionResponseE × ℚ) :
    Prop :=
  a.2.2 > b.2.2 ∨ (a.2.2 = b.2.2 ∧ rnd a.1 ≥ rnd b.1)

instance speakerRelDecidable (rnd : String → ℚ) :
    DecidableRel (speakerRel rnd) := fun a b => by
  unfold speakerRel
  infer_instance

instance speakerRelTotal (rnd : String → ℚ) :
    IsTotal (String × DiscussionResponseE × ℚ) (speakerRel rnd) := by
  constructor
  intro a b
  unfold speakerRel
  rcases lt_trichotomy a.2.2 b.2.2 with h | h | h
  · exact Or.inr (Or.inl h)
  · rcases le_total (rnd b.1) (rnd a.1) with hr | hr
    · exact Or.inl (Or.inr ⟨h, hr⟩)
    · exact Or.inr (Or.inr ⟨h.symm, hr⟩)
  · exact Or.inl (Or.inl h)

instance speakerRelTrans (rnd : String → ℚ) :
    IsTrans (String × DiscussionResponseE × ℚ) (speakerRel rnd) := by
  constructor
  intro a b c hab hbc
  unfold speakerRel at *
  rcases hab with hab | ⟨hab, hra⟩ <;> rcases hbc with hbc | ⟨hbc, hrb⟩
  · exact Or.inl (lt_trans hbc hab)
  · exact Or.inl (hbc ▸ hab)
  · exact Or.inl (hab ▸ hbc)
  · exact Or.inr ⟨hab.trans hbc, le_trans hrb hra⟩

/-- The ranking of the speaking candidates: a stable sort by the
descending `(adjusted urgency, per-round random draw)` key. -/
def rankSpeakers (rnd : String → ℚ)
    (l : List (String × DiscussionResponseE × ℚ)) :
    List (String × DiscussionResponseE × ℚ) :=
  l.insertionSort (speakerRel rnd)

/-- Collaborator inputs of a discussion phase: per iteration, the
collected `(agent, response-or-error)` pairs in completion order and the
per-agent random tie-break draws of that iteration. -/
structure DiscussionOracle where
  resps : Nat → List (String × Option DiscussionResponseE)
  rnd : Nat → String → ℚ

/-- Loop state of `_run_discussion_phase`: executed iterations, the
speaking-round counter `total_rounds`, `consecutive_silent_rounds`, the
`speaking_counts` dict and the appended transcript messages. -/
structure DiscState where
  iter : Nat := 0
  total_rounds : Nat := 0
  silent : Nat := 0
  counts : List (String × Nat) := []
  transcript : List DiscussionMsg := []
  deriving DecidableEq, Repr

/-- One iteration of the discussion loop body: if nobody speaks, count a
silent round; otherwise the top-ranked candidate speaks, their count is
bumped, the silence streak resets and the comment joins the transcript. -/
def discStep (o : DiscussionOracle) (roundNum : Nat) (st : DiscState) :
    DiscState :=
  match rankSpeakers (o.rnd st.iter) (speakCands st.counts (o.resps st.iter)) with
  | [] => { st with iter := st.iter + 1, silent := st.silent + 1 }
  | (n, r, _) :: _ =>
    { st with
      iter := st.iter + 1,
      total_rounds := st.total_rounds + 1,
      silent := 0,
      counts := dictInsert st.counts n (dictGetD st.counts n 0 + 1),
      transcript := st.transcript ++
        [{ player_name := n, comment := r.comment, round_number := roundNum }] }

/-- The loop guard
`total_rounds < max_total_rounds and consecutive_silent_rounds < 3`. -/
def discGuard (max_total_rounds : Nat) (st : DiscState) : Bool :=
  decide (st.total_rounds < max_total_rounds) && decide (st.silent < 3)

/-- The `while` loop, driven by fuel; `none` means the fuel ran out
before the guard failed (the termination theorem shows enough fuel always
exists). -/
def discLoop (o : DiscussionOracle) (roundNum max_total_rounds : Nat) :
    Nat → DiscState → Option DiscState
  | 0, _ => none
  | Nat.succ fuel, st =>
    if discGuard max_total_rounds st then
      discLoop o roundNum max_total_rounds fuel (discStep o roundNum st)
    else some st

/-- `speaking_counts = {name: 0 for name in alive_players}` and zeroed
loop counters. -/
def initDiscState (alive : List String) : DiscState :=
  { counts := alive.map (fun n => (n, 0)) }

/-- `GameOrchestrator._run_discussion_phase` with
`max_total_rounds = max_discussion_rounds * len(alive_agents)`. -/
def run_discussion_phase (o : DiscussionOracle) (alive : List String)
    (max_discussion_rounds roundNum fuel : Nat) : Option DiscState :=
  discLoop o roundNum (max_discussion_rounds * alive.length) fuel
    (initDiscState alive)

/-- Decreasing measure of the discussion loop. -/
def discMeasure (max_total_rounds : Nat) (st : DiscState) : Nat :=
  4 * (max_total_rounds - st.total_rounds) + (3 - st.silent)

/-- A trivial oracle whose every request fails. -/
def trivialVoteOracle : VoteOracle where
  initialRaw := fun _ _ => errorVoteDecision
  finalRaw := fun _ _ => errorVoteDecision
  defenseText := fun _ _ => ""

/-- The behaviour the code actually implements for an out-of-candidate
target: the accepted target is the first candidate whose lowercased name
occurs in the lowercased returned target, or the first candidate when no
candidate matches. -/
def firstMatchSpec (candidates : List String) (raw c0 t : String) : Prop :=
  (∃ l1 l2, candidates = l1 ++ t :: l2 ∧ pyInStr t raw = true ∧
    ∀ c ∈ l1, pyInStr c raw = false) ∨
  ((∀ c ∈ candidates, pyInStr c raw = false) ∧ t = c0)

/-- Oracle in which Carl's initial-vote request fails (the LLM layer
returns the default-constructed decision) while the others vote "Bob". -/
def exFailOracle : VoteOracle where
  initialRaw := fun _ v =>
    if v == "Carl" then errorVoteDecision else { target := "Bob", reason := "sus" }
  finalRaw := fun _ _ => errorVoteDecision
  defenseText := fun _ _ => ""

/-- Random draw used by the C7 counterexample: "A" draws 1, others 0. -/
def exC7Rnd : String → ℚ := fun n => if n == "A" then 1 else 0

/-- Oracle for the C8 counterexample: silence on iterations 0 and 1, a
single speaker on iteration 2. -/
def exC8Oracle : DiscussionOracle where
  resps := fun i =>
    if i == 2 then [("A", some { speak := true, comment := "hi", urgency := 3 })]
    else []
  rnd := fun _ _ => 0

/-- Oracle that never produces a speaker. -/
def exSilentOracle : DiscussionOracle where
  resps := fun _ =>
    [("A", none), ("B", some { speak := false, comment := "", urgency := 2 })]
  rnd := fun _ _ => 0

/-! ## Voting-phase tie handling (C3) -/

/-- The voting-history record an initial-vote tie appends in sub-round
`vr` of day `dayRound`. -/
def tieRec (o : VoteOracle) (alive : List String) (vr dayRound : Nat) :
    VotingRoundRec :=
  { round := dayRound, voting_round := vr,
    votes := (runInitialVotes o vr alive).recs,
    tied_candidates := some (maxHolders (runInitialVotes o vr alive).counts),
    tie_votes := some (listMaxNat
      ((runInitialVotes o vr alive).counts.map Prod.snd)) }

/-- Day state for the C3 scenarios: four alive players. -/
def exVoteState : GameState :=
  { players := [{ name := "A", role := Role.villager },
                { name := "B", role := Role.villager },
                { name := "C", role := Role.mafia },
                { name := "D", role := Role.mafia }],
    alive_players := ["A", "B", "C", "D"],
    round_number := 1 }

/-- Oracle for the C3 counterexample.  In every sub-round the initial
votes single out "D"; the first final vote ties between "B" and "C", the
second final vote eliminates "D". -/
def exC3Oracle : VoteOracle where
  initialRaw := fun _ v =>
    if v == "D" then { target := "A", reason := "i" }
    else { target := "D", reason := "i" }
  finalRaw := fun vr v =>
    if vr == 1 then
      if v == "A" then { target := "B", reason := "f" }
      else if v == "B" then { target := "C", reason := "f" }
      else if v == "C" then { target := "B", reason := "f" }
      else { target := "C", reason := "f" }
    else
      if v == "D" then { target := "A", reason := "f" }
      else { target := "D", reason := "f" }
  defenseText := fun _ _ => "not me"

/-- Two alive players who always vote for each other: every initial vote
is a 1-1 tie. -/
def exTieOracle : VoteOracle where
  initialRaw := fun _ v =>
    if v == "A" then { target := "B", reason := "t" }
    else { target := "A", reason := "t" }
  finalRaw := fun _ _ => errorVoteDecision
  defenseText := fun _ _ => ""

/-- Two-player day state for the C3 witness. -/
def exTieState : GameState :=
  { players := [{ name := "A", role := Role.villager },
                { name := "B", role := Role.mafia }],
    alive_players := ["A", "B"],
    round_number := 2 }

/-! ## Theorems -/

/-- C1: the win evaluator agrees with the claim's case analysis on every
game state. -/
theorem C1_win_evaluator_matches_claim (players : List Player) :
    check_win_condition players = claimWinEvaluator players := by
  unfold check_win_condition claimWinEvaluator
  dsimp only
  split_ifs <;> first | rfl | omega

/-- A membership fact about `dictInsert`: every binding of the updated
dict is the new binding or one of the old ones. -/
theorem mem_dictInsert {α : Type} {d : List (String × α)} {k : String} {v : α}
    {e : String × α} (h : e ∈ dictInsert d k v) : e = (k, v) ∨ e ∈ d := by
  induction d with
  | nil =>
    simp [dictInsert] at h
    exact Or.inl h
  | cons hd tl ih =>
    rw [dictInsert] at h
    by_cases hk : hd.1 == k
    · obtain ⟨k', v'⟩ := hd
      simp only [hk, if_pos] at h
      rcases List.mem_cons.mp h with h | h
      · exact Or.inl h
      · exact Or.inr (List.mem_cons_of_mem _ h)
    · obtain ⟨k', v'⟩ := hd
      simp only [hk, if_neg] at h
      rcases List.mem_cons.mp h with h | h
      · exact Or.inr (h ▸ List.mem_cons_self _ _)
      · rcases ih h with h | h
        · exact Or.inl h
        · exact Or.inr (List.mem_cons_of_mem _ h)

/-! ### Properties of the consensus computation -/

theorem mem_firstOccurrences {u : String} {ts : List String} :
    u ∈ firstOccurrences ts ↔ u ∈ ts := by
  induction ts with
  | nil => simp [firstOccurrences]
  | cons t ts ih =>
    by_cases hu : u = t
    · simp [firstOccurrences, hu]
    · simp [firstOccurrences, List.mem_filter, hu, ih]

/-- Counter keys are listed in strictly increasing first-occurrence order. -/
theorem pairwise_indexOf_firstOccurrences (ts : List String) :
    (firstOccurrences ts).Pairwise
      (fun a b => List.indexOf a ts < List.indexOf b ts) := by
  induction ts with
  | nil => simp [firstOccurrences]
  | cons t ts ih =>
    rw [firstOccurrences]
    refine List.Pairwise.cons ?_ ?_
    · intro b hb
      have hbne : b ≠ t := by
        have := (List.mem_filter.mp hb).2
        simpa using this
      simp only [List.indexOf_cons_self, List.indexOf_cons_ne ts hbne.symm]
      exact Nat.succ_pos _
    · have hfilter := List.Pairwise.filter (fun u => !(u == t)) ih
      refine hfilter.imp_of_mem ?_
      intro a b ha hb hab
      have hane : a ≠ t := by simpa using (List.mem_filter.mp ha).2
      have hbne : b ≠ t := by simpa using (List.mem_filter.mp hb).2
      rw [List.indexOf_cons_ne _ hane.symm, List.indexOf_cons_ne _ hbne.symm]
      exact Nat.succ_lt_succ hab

/-- The scan for the best-count key returns the first key whose count is
maximal: the keys are split into a strictly-smaller-count prefix, the
winner, and a no-larger-count remainder. -/
theorem pickMax_fold_spec (f : String → Nat) :
    ∀ (ds : List String) (b : String),
      ∃ c l₁ l₂, ds.foldl (pickMaxStep f) (some b) = some c ∧
        b :: ds = l₁ ++ c :: l₂ ∧
        (∀ u ∈ l₁, f u < f c) ∧
        (∀ u ∈ b :: ds, f u ≤ f c) := by
  intro ds
  induction ds with
  | nil =>
    intro b
    exact ⟨b, [], [], rfl, rfl, by simp, by simp⟩
  | cons d ds ih =>
    intro b
    by_cases h : f d > f b
    · obtain ⟨c, l₁, l₂, hfold, hdec, hlt, hmax⟩ := ih d
      have hdc : f d ≤ f c := hmax d (List.mem_cons_self _ _)
      refine ⟨c, b :: l₁, l₂, ?_, ?_, ?_, ?_⟩
      · simpa [List.foldl_cons, pickMaxStep, h] using hfold
      · rw [List.cons_append, ← hdec]
      · intro u hu
        rcases List.mem_cons.mp hu with rfl | hu
        · exact Nat.lt_of_lt_of_le h hdc
        · exact hlt u hu
      · intro u hu
        rcases List.mem_cons.mp hu with rfl | hu
        · exact Nat.le_of_lt (Nat.lt_of_lt_of_le h hdc)
        · exact hmax u hu
    · obtain ⟨c, l₁, l₂, hfold, hdec, hlt, hmax⟩ := ih b
      have hfold' : ds.foldl (pickMaxStep f) (pickMaxStep f (some b) d) = some c := by
        simpa [pickMaxStep, h] using hfold
      have hdb : f d ≤ f b := Nat.le_of_not_lt h
      cases l₁ with
      | nil =>
        rw [List.nil_append] at hdec
        injection hdec with h1 h2
        subst h1
        subst h2
        refine ⟨b, [], d :: ds, hfold', rfl, by simp, ?_⟩
        intro u hu
        rcases List.mem_cons.mp hu with rfl | hu
        · exact Nat.le_refl _
        · rcases List.mem_cons.mp hu with rfl | hu
          · exact hdb
          · exact hmax u (List.mem_cons_of_mem _ hu)
      | cons x l₁' =>
        have hx : x = b ∧ ds = l₁' ++ c :: l₂ := by
          rw [List.cons_append] at hdec
          injection hdec with h1 h2
          exact ⟨h1.symm, h2⟩
        obtain ⟨hx, hds⟩ := hx
        subst hx
        have hbc : f x < f c := hlt x (List.mem_cons_self _ _)
        refine ⟨c, x :: d :: l₁', l₂, hfold', ?_, ?_, ?_⟩
        · rw [hds, List.cons_append, List.cons_append]
        · intro u hu
          rcases List.mem_cons.mp hu with rfl | hu
          · exact hbc
          · rcases List.mem_cons.mp hu with rfl | hu
            · exact Nat.lt_of_le_of_lt hdb hbc
            · exact hlt u (List.mem_cons_of_mem _ hu)
        · intro u hu
          rcases List.mem_cons.mp hu with rfl | hu
          · exact hmax u (List.mem_cons_self _ _)
          · rcases List.mem_cons.mp hu with rfl | hu
            · exact Nat.le_trans hdb (Nat.le_of_lt hbc)
            · exact hmax u (List.mem_cons_of_mem _ hu)

/-- `Counter(ts).most_common(1)` on a non-empty list returns a maximal
count element whose first occurrence precedes that of every other
maximal-count element. -/
theorem mostCommon1_spec {ts : List String} (h : ts ≠ []) :
    ∃ t, mostCommon1 ts = some t ∧ t ∈ ts ∧
      (∀ u ∈ ts, countOcc ts u ≤ countOcc ts t) ∧
      (∀ u ∈ ts, countOcc ts u = countOcc ts t →
        List.indexOf t ts ≤ List.indexOf u ts) := by
  have hfo : firstOccurrences ts ≠ [] := by
    cases ts with
    | nil => exact absurd rfl h
    | cons a l => simp [firstOccurrences]
  obtain ⟨d, ds, hds⟩ := List.exists_cons_of_ne_nil hfo
  have hfold : mostCommon1 ts = ds.foldl (pickMaxStep (countOcc ts)) (some d) := by
    unfold mostCommon1
    rw [hds]
    rfl
  obtain ⟨c, l₁, l₂, hf, hdec, hlt, hmax⟩ := pickMax_fold_spec (countOcc ts) ds d
  have hdecfo : firstOccurrences ts = l₁ ++ c :: l₂ := by rw [hds, hdec]
  refine ⟨c, by rw [hfold, hf], ?_, ?_, ?_⟩
  · have : c ∈ firstOccurrences ts := by
      rw [hdecfo]
      exact List.mem_append_right l₁ (List.mem_cons_self _ _)
    exact mem_firstOccurrences.mp this
  · intro u hu
    have humem : u ∈ firstOccurrences ts := mem_firstOccurrences.mpr hu
    rw [hds] at humem
    exact hmax u humem
  · intro u hu hcnt
    have humem : u ∈ firstOccurrences ts := mem_firstOccurrences.mpr hu
    rw [hdecfo] at humem
    rcases List.mem_append.mp humem with h1 | h2
    · exact absurd hcnt (Nat.ne_of_lt (hlt u h1))
    · rcases List.mem_cons.mp h2 with rfl | h2
      · exact Nat.le_refl _
      · have hpw := pairwise_indexOf_firstOccurrences ts
        rw [hdecfo] at hpw
        have hcl₂ := (List.pairwise_append.mp hpw).2.1
        exact Nat.le_of_lt ((List.pairwise_cons.mp hcl₂).1 u h2)

/-- Recording individual proposals in the audit log leaves the consensus
target field untouched. -/
theorem trackFold_mafia_target (l : List (String × NightDec)) (st : GameState) :
    (l.foldl (fun s nd => trackNightAction s nd.1 "mafia_propose" nd.2.target
      (nd.2.reason.getD "No reason given")) st).mafia_target = st.mafia_target := by
  induction l generalizing st with
  | nil => rfl
  | cons nd l ih =>
    rw [List.foldl_cons, ih]
    rfl

/-- C10: whenever at least one proposal is collected, the consensus target
is a proposed target with the maximal proposal count, ties resolved to the
first-encountered proposal; no target is set only when zero proposals
arrive. -/
theorem C10_consensus_plurality_first_encounter
    (responses : List (String × Option NightDec)) (st : GameState) :
    (proposalsOf responses ≠ [] →
      ∃ t, (mafiaNightAction responses st).mafia_target = some t ∧
        t ∈ targetsOf responses ∧
        (∀ u ∈ targetsOf responses,
          countOcc (targetsOf responses) u ≤ countOcc (targetsOf responses) t) ∧
        (∀ u ∈ targetsOf responses,
          countOcc (targetsOf responses) u = countOcc (targetsOf responses) t →
            List.indexOf t (targetsOf responses) ≤
              List.indexOf u (targetsOf responses))) ∧
    (proposalsOf responses = [] →
      (mafiaNightAction responses st).mafia_target = st.mafia_target) := by
  constructor
  · intro hne
    have htne : targetsOf responses ≠ [] := by
      intro hempty
      exact hne (List.map_eq_nil_iff.mp hempty)
    obtain ⟨t, hmc, hmem, hmax, hfirst⟩ := mostCommon1_spec htne
    refine ⟨t, ?_, hmem, hmax, hfirst⟩
    unfold mafiaNightAction
    have hempty : (proposalsOf responses).isEmpty = false := by
      simpa [List.isEmpty_iff] using hne
    simp only [hempty, Bool.false_eq_true, if_false, targetsOf] at hmc ⊢
    rw [hmc]
  · intro hp
    unfold mafiaNightAction
    simp [hp]

/-- C10 witness: a single proposal for "Vic" yields consensus target
"Vic", which trivially has maximal count and earliest index. -/
theorem C10_consensus_plurality_first_encounter_witness :
    ∃ t, (mafiaNightAction [("M1", some { target := "Vic" })]
        ({} : GameState)).mafia_target = some t ∧
      t ∈ targetsOf [("M1", some { target := "Vic" })] ∧
      (∀ u ∈ targetsOf [("M1", some { target := "Vic" })],
        countOcc (targetsOf [("M1", some { target := "Vic" })]) u ≤
          countOcc (targetsOf [("M1", some { target := "Vic" })]) t) ∧
      (∀ u ∈ targetsOf [("M1", some { target := "Vic" })],
        countOcc (targetsOf [("M1", some { target := "Vic" })]) u =
            countOcc (targetsOf [("M1", some { target := "Vic" })]) t →
          List.indexOf t (targetsOf [("M1", some { target := "Vic" })]) ≤
            List.indexOf u (targetsOf [("M1", some { target := "Vic" })])) :=
  (C10_consensus_plurality_first_encounter
    [("M1", some { target := "Vic" })] {}).1 (by decide)

/-- C2: night resolution.  If the consensus target equals the save target
nothing changes and the sole player-visible announcement is the fixed
no-elimination message; a differing consensus target naming an alive
participant (the only case in which Python's `alive_players.remove`
succeeds) is eliminated exactly; no consensus target means no death. -/
theorem C2_night_resolution (st : GameState) (t : String) :
    (st.mafia_target = some t → t ≠ "" → st.doctor_save = some t →
      (resolve_night_actions st).2 = [noOneEliminatedMsg] ∧
      (resolve_night_actions st).1.players = st.players ∧
      (resolve_night_actions st).1.alive_players = st.alive_players ∧
      (resolve_night_actions st).1.dead_players = st.dead_players ∧
      (resolve_night_actions st).1.elimination_history = st.elimination_history) ∧
    (st.mafia_target = some t → t ≠ "" → st.doctor_save ≠ some t →
      t ∈ st.alive_players →
      (st.players.find? (fun p => p.name == t)).isSome →
      (resolve_night_actions st).1.players = setDeadFirst st.players t ∧
      (resolve_night_actions st).1.alive_players = st.alive_players.erase t ∧
      (resolve_night_actions st).1.dead_players = st.dead_players ++ [t] ∧
      (resolve_night_actions st).1.elimination_history
        = st.elimination_history ++ [t] ∧
      (resolve_night_actions st).2 = [nightKillMsg t]) ∧
    (st.mafia_target = none →
      (resolve_night_actions st).1.players = st.players ∧
      (resolve_night_actions st).1.alive_players = st.alive_players ∧
      (resolve_night_actions st).1.elimination_history = st.elimination_history ∧
      (resolve_night_actions st).2 = []) := by
  refine ⟨?_, ?_, ?_⟩
  · intro hmt hne hds
    simp [resolve_night_actions, hmt, hne, hds]
  · intro hmt hne hds _halive hfind
    obtain ⟨p, hp⟩ := Option.isSome_iff_exists.mp hfind
    have hbeq : (st.doctor_save == some t) = false := by
      simpa using hds
    simp [resolve_night_actions, hmt, hne, hbeq, eliminate_player, hp]
  · intro hmt
    simp [resolve_night_actions, hmt]

/-- C2 witness: the save-cancels-kill branch and the alive-target kill
branch, each on a concrete state. -/
theorem C2_night_resolution_witness :
    ((resolve_night_actions exSaveState).2 = [noOneEliminatedMsg] ∧
     (resolve_night_actions exSaveState).1.players = exSaveState.players ∧
     (resolve_night_actions exSaveState).1.alive_players
       = exSaveState.alive_players ∧
     (resolve_night_actions exSaveState).1.dead_players
       = exSaveState.dead_players ∧
     (resolve_night_actions exSaveState).1.elimination_history
       = exSaveState.elimination_history) ∧
    ((resolve_night_actions exKillState).1.players
       = setDeadFirst exKillState.players "Ann" ∧
     (resolve_night_actions exKillState).1.alive_players
       = exKillState.alive_players.erase "Ann" ∧
     (resolve_night_actions exKillState).1.dead_players
       = exKillState.dead_players ++ ["Ann"] ∧
     (resolve_night_actions exKillState).1.elimination_history
       = exKillState.elimination_history ++ ["Ann"] ∧
     (resolve_night_actions exKillState).2 = [nightKillMsg "Ann"]) :=
  ⟨(C2_night_resolution exSaveState "Ann").1 rfl (by decide) rfl,
   (C2_night_resolution exKillState "Ann").2.1 rfl (by decide) (by decide)
     (by decide) (by decide)⟩

/-- C9 counterexample: the core performs no candidate-set validation of
night targets.  A proposal naming fellow mafia member "M2" becomes the
consensus target even though "M2" is an alive killer, and a detective
decision naming the dead player "Dora" is recorded into the cumulative
findings even though "Dora" is not alive. -/
theorem C9_no_validation_counterexample :
    (mafiaNightAction [("M1", some { target := "M2" })] exMafiaState).mafia_target
      = some "M2" ∧
    (exMafiaState.players.find? (fun p => p.name == "M2")).map Player.role
      = some Role.mafia ∧
    (detectiveNightAction "Det" (some { target := "Dora" })
        exMafiaState).detective_results = [("Dora", "doctor")] ∧
    (exMafiaState.players.find? (fun p => p.name == "Dora")).map Player.is_alive
      = some false := by
  refine ⟨?_, by decide, ?_, by decide⟩
  · decide
  · decide

/-- C9 amended: the core takes night targets from the collaborator
without candidate-set validation.  The consensus target, when newly set,
is merely one of the proposed strings; a detective finding is recorded
exactly when the target names an existing participant (alive or not,
investigated before or not), and the recorded role is that participant's
true role. -/
theorem C9_night_targets_unvalidated :
    (∀ (responses : List (String × Option NightDec)) (st : GameState)
        (t : String),
      (mafiaNightAction responses st).mafia_target = some t →
        st.mafia_target = some t ∨ t ∈ targetsOf responses) ∧
    (∀ (detectiveName : String) (dec : Option NightDec) (st : GameState),
      (detectiveNightAction detectiveName dec st).detective_results
          ≠ st.detective_results →
        ∃ d p, dec = some d ∧ p ∈ st.players ∧ p.name = d.target ∧
          (detectiveNightAction detectiveName dec st).detective_results
            = dictInsert st.detective_results d.target p.role.value) := by
  constructor
  · intro responses st t hset
    by_cases hp : proposalsOf responses = []
    · left
      rw [← hset]
      unfold mafiaNightAction
      simp [hp]
    · right
      have htne : targetsOf responses ≠ [] := by
        intro hempty
        exact hp (List.map_eq_nil_iff.mp hempty)
      obtain ⟨c, hmc, hcmem, _, _⟩ := mostCommon1_spec htne
      have hempty : (proposalsOf responses).isEmpty = false := by
        simpa [List.isEmpty_iff] using hp
      unfold mafiaNightAction at hset
      simp only [hempty, Bool.false_eq_true, if_false, targetsOf] at hset hmc
      rw [hmc] at hset
      simp only [Option.some.injEq] at hset
      exact hset ▸ hcmem
  · intro detectiveName dec st hchanged
    match dec with
    | none => exact absurd rfl hchanged
    | some d =>
      unfold detectiveNightAction at hchanged ⊢
      match hfind : st.players.find? (fun p => p.name == d.target) with
      | none =>
        simp only [hfind] at hchanged
        exact absurd rfl hchanged
      | some p =>
        refine ⟨d, p, rfl, List.mem_of_find?_eq_some hfind, ?_, ?_⟩
        · have := List.find?_some hfind
          simpa using this
        · simp only [hfind]
          rfl

/-- C9 amended witness: the concrete proposal for "M2" resolves through
the right disjunct, and the dead "Dora" finding through the existence
clause. -/
theorem C9_night_targets_unvalidated_witness :
    (exMafiaState.mafia_target = some "M2" ∨
      "M2" ∈ targetsOf [("M1", some { target := "M2" })]) ∧
    (∃ d p, (some { target := "Dora" } : Option NightDec) = some d ∧
      p ∈ exMafiaState.players ∧ p.name = d.target ∧
      (detectiveNightAction "Det" (some { target := "Dora" })
          exMafiaState).detective_results
        = dictInsert exMafiaState.detective_results d.target p.role.value) :=
  ⟨C9_night_targets_unvalidated.1 [("M1", some { target := "M2" })]
      exMafiaState "M2" (by decide),
   C9_night_targets_unvalidated.2 "Det" (some { target := "Dora" })
      exMafiaState (by decide)⟩

/-! ## Voting-validation properties (C4, C5, C6) -/

theorem mem_candidatesFor {alive : List String} {voter t : String}
    (h : t ∈ candidatesFor alive voter) : t ≠ voter := by
  have := (List.mem_filter.mp h).2
  simpa using this

/-- Every vote the initial-voting validation accepts names a candidate. -/
theorem orchInitialValidate_mem {voter : String} {candidates : List String}
    {vd : VoteDecision} {t reason : String}
    (h : orchInitialValidate voter candidates vd = some (t, reason)) :
    t ∈ candidates := by
  unfold orchInitialValidate at h
  by_cases h1 : candidates.contains vd.target
  · rw [if_pos h1] at h
    simp only [Option.some.injEq, Prod.mk.injEq] at h
    obtain ⟨rfl, rfl⟩ := h
    simpa using h1
  · rw [if_neg h1] at h
    by_cases h2 : (vd.target == voter) = true
    · rw [if_pos h2] at h
      cases candidates with
      | nil => exact absurd h (by simp)
      | cons c0 rest =>
        injection h with h
        have : t = c0 := (congrArg Prod.fst h).symm
        exact this ▸ List.mem_cons_self _ _
    · rw [if_neg h2] at h
      exact absurd h (by simp)

/-- Every vote the final-voting validation tallies names a candidate. -/
theorem orchFinalValidate_mem {voter : String} {candidates : List String}
    {vd : VoteDecision} {t : String}
    (h : (orchFinalValidate voter candidates vd).1 = some t) :
    t ∈ candidates := by
  unfold orchFinalValidate at h
  by_cases h1 : candidates.contains vd.target
  · rw [if_pos h1] at h
    injection h with h
    subst h
    simpa using h1
  · rw [if_neg h1] at h
    by_cases h2 : (vd.target == voter) = true
    · rw [if_pos h2] at h
      cases candidates with
      | nil => exact absurd h (by simp)
      | cons c0 rest =>
        injection h with h
        exact h ▸ List.mem_cons_self _ _
    · rw [if_neg h2] at h
      cases candidates with
      | nil => exact absurd h (by simp)
      | cons c0 rest =>
        simp only at h
        injection h with h
        subst h
        cases hf : (c0 :: rest).find? (fun c => pyInStr c vd.target) with
        | none => simp [hf]
        | some m =>
          have := List.mem_of_find?_eq_some hf
          simpa [hf] using this

/-- `find?` returns the first satisfying element: the list splits into a
failing prefix, the hit, and a remainder. -/
theorem find?_first {p : String → Bool} :
    ∀ {l : List String} {m : String}, l.find? p = some m →
      p m = true ∧ ∃ l1 l2, l = l1 ++ m :: l2 ∧ ∀ c ∈ l1, p c = false := by
  intro l
  induction l with
  | nil => intro m h; exact absurd h (by simp)
  | cons a l ih =>
    intro m h
    by_cases ha : p a = true
    · rw [List.find?_cons_of_pos l ha] at h
      injection h with h
      subst h
      exact ⟨ha, [], l, rfl, by intro c hc; exact absurd hc (List.not_mem_nil c)⟩
    · rw [List.find?_cons_of_neg l ha] at h
      obtain ⟨hm, l1, l2, rfl, hl1⟩ := ih h
      refine ⟨hm, a :: l1, l2, rfl, ?_⟩
      intro c hc
      rcases List.mem_cons.mp hc with rfl | hc
      · exact Bool.eq_false_iff.mpr ha
      · exact hl1 c hc

/-- The no-self-vote invariant survives one initial-voting fold. -/
theorem initialVotes_fold_no_self (o : VoteOracle) (vr : Nat)
    (alive : List String) :
    ∀ (voters : List String) (acc : InitVoteAcc),
      (∀ e ∈ acc.votes, e.1 ≠ e.2) →
      ∀ e ∈ (voters.foldl (initialVoteStep o vr alive) acc).votes, e.1 ≠ e.2 := by
  intro voters
  induction voters with
  | nil => intro acc hacc; exact hacc
  | cons v voters ih =>
    intro acc hacc
    rw [List.foldl_cons]
    apply ih
    intro e he
    unfold initialVoteStep at he
    dsimp only at he
    split at he
    case _ t reason heq =>
      rcases mem_dictInsert he with rfl | he
      · have ht := orchInitialValidate_mem heq
        exact fun hcontra => (mem_candidatesFor ht) hcontra.symm
      · exact hacc e he
    case _ => exact hacc e he

/-- The no-self-vote invariant survives one final-voting fold. -/
theorem finalVotes_fold_no_self (o : VoteOracle) (vr : Nat)
    (alive : List String) :
    ∀ (voters : List String) (acc : FinalVoteAcc),
      (∀ e ∈ acc.votes, e.1 ≠ e.2) →
      ∀ e ∈ (voters.foldl (finalVoteStep o vr alive) acc).votes, e.1 ≠ e.2 := by
  intro voters
  induction voters with
  | nil => intro acc hacc; exact hacc
  | cons v voters ih =>
    intro acc hacc
    rw [List.foldl_cons]
    apply ih
    intro e he
    unfold finalVoteStep at he
    dsimp only at he
    split at he
    case _ t heq =>
      rcases mem_dictInsert he with rfl | he
      · have ht := orchFinalValidate_mem heq
        exact fun hcontra => (mem_candidatesFor ht) hcontra.symm
      · exact hacc e he
    case _ => exact hacc e he

/-- C4: no voting sub-round ever tallies a self-vote, and a returned
self-vote is deterministically replaced by the first candidate with the
synthetic substitution reason, in both the initial and the final voting
validation. -/
theorem C4_no_self_vote (o : VoteOracle) (vr : Nat) (alive : List String) :
    (∀ e ∈ (runInitialVotes o vr alive).votes, e.1 ≠ e.2) ∧
    (∀ e ∈ (runFinalVotes o vr alive).votes, e.1 ≠ e.2) ∧
    (∀ (voter : String) (candidates : List String) (vd : VoteDecision)
        (c0 : String) (rest : List String),
      vd.target = voter → candidates = c0 :: rest → voter ∉ candidates →
      orchInitialValidate voter candidates vd =
        some (c0, "Cannot vote for self, voting " ++ c0 ++ " instead")) ∧
    (∀ (voter : String) (candidates : List String) (vd : VoteDecision)
        (c0 : String) (rest : List String),
      vd.target = voter → candidates = c0 :: rest → voter ∉ candidates →
      orchFinalValidate voter candidates vd =
        (some c0, "Cannot vote for self, voting " ++ c0 ++ " instead")) := by
  refine ⟨?_, ?_, ?_, ?_⟩
  · exact initialVotes_fold_no_self o vr alive alive {} (by intro e he; simp at he)
  · exact finalVotes_fold_no_self o vr alive alive {} (by intro e he; simp at he)
  · intro voter candidates vd c0 rest htgt hc hvoter
    subst htgt
    subst hc
    unfold orchInitialValidate
    rw [if_neg (by simpa using hvoter)]
    rw [if_pos (by simp)]
  · intro voter candidates vd c0 rest htgt hc hvoter
    subst htgt
    subst hc
    unfold orchFinalValidate
    rw [if_neg (by simpa using hvoter)]
    rw [if_pos (by simp)]

/-- C4 witness: the self-substitution branches at a concrete input, plus
the no-self-vote fact on a concrete tallied entry. -/
theorem C4_no_self_vote_witness :
    orchInitialValidate "Bob" ["Ann"] { target := "Bob", reason := "w" }
      = some ("Ann", "Cannot vote for self, voting Ann instead") ∧
    orchFinalValidate "Bob" ["Ann"] { target := "Bob", reason := "w" }
      = (some "Ann", "Cannot vote for self, voting Ann instead") ∧
    ("Ann", "Bob").1 ≠ ("Ann", "Bob").2 :=
  ⟨(C4_no_self_vote trivialVoteOracle 1 ["Ann", "Bob"]).2.2.1
      "Bob" ["Ann"] { target := "Bob", reason := "w" } "Ann" [] rfl rfl (by decide),
   (C4_no_self_vote trivialVoteOracle 1 ["Ann", "Bob"]).2.2.2
      "Bob" ["Ann"] { target := "Bob", reason := "w" } "Ann" [] rfl rfl (by decide),
   (C4_no_self_vote trivialVoteOracle 1 ["Ann", "Bob"]).1
      ("Ann", "Bob") (by decide)⟩

/-- C5 counterexample: with candidates `["Carl", "Ann", "Anne"]` and the
returned target `"ann or anne"`, two candidates match by case-insensitive
substring containment, so the claim's rule ("accept only a unique match,
otherwise the first candidate") yields `"Carl"`; the code instead accepts
the first matching candidate `"Ann"`. -/
theorem C5_substring_matching_counterexample :
    (agent_vote_validate ["Carl", "Ann", "Anne"]
        { target := "ann or anne", reason := "r" }).target = "Ann" ∧
    claimUniqueMatch ["Carl", "Ann", "Anne"] "ann or anne" = some "Carl" ∧
    (["Carl", "Ann", "Anne"].filter
        (fun c => pyInStr c "ann or anne")).length = 2 ∧
    ("ann or anne" ∉ ["Carl", "Ann", "Anne"]) ∧
    ("Ann" : String) ≠ "Carl" := by
  refine ⟨by decide, by decide, by decide, by decide, by decide⟩

/-- C5 amended: every vote is resolved to a valid candidate and tallied;
an out-of-candidate target resolves to the **first** substring-matching
candidate (unique or not), falling back to the first candidate when
nothing matches — in the agent-side validation used by initial voting and
in the final-voting validation alike. -/
theorem C5_first_substring_match (voter : String) (candidates : List String)
    (vd : VoteDecision) (c0 : String) (rest : List String)
    (h : candidates = c0 :: rest) :
    (agent_vote_validate candidates vd).target ∈ candidates ∧
    orchInitialValidate voter candidates (agent_vote_validate candidates vd)
      = some ((agent_vote_validate candidates vd).target, vd.reason) ∧
    (vd.target ∉ candidates →
      firstMatchSpec candidates vd.target c0
        (agent_vote_validate candidates vd).target) ∧
    (vd.target ∉ candidates → vd.target ≠ voter →
      ∃ t', orchFinalValidate voter candidates vd = (some t', vd.reason) ∧
        t' ∈ candidates ∧ firstMatchSpec candidates vd.target c0 t') := by
  subst h
  by_cases hc : ((c0 :: rest).contains vd.target) = true
  · have hmem : vd.target ∈ c0 :: rest := by simpa using hc
    have hv : agent_vote_validate (c0 :: rest) vd = vd := by
      unfold agent_vote_validate
      rw [if_pos hc]
    refine ⟨?_, ?_, fun hno => absurd hmem hno, fun hno => absurd hmem hno⟩
    · rw [hv]
      exact hmem
    · rw [hv]
      unfold orchInitialValidate
      rw [if_pos hc]
  · have hno : vd.target ∉ c0 :: rest := by simpa using hc
    have hcf : ((c0 :: rest).contains vd.target) = false := by
      simpa using hno
    cases hf : (c0 :: rest).find? (fun c => pyInStr c vd.target) with
    | some m =>
      have hv : (agent_vote_validate (c0 :: rest) vd).target = m := by
        unfold agent_vote_validate
        rw [if_neg (by simpa using hno)]
        simp [hf]
      have hmmem : m ∈ c0 :: rest := List.mem_of_find?_eq_some hf
      obtain ⟨hpm, l1, l2, hsplit, hl1⟩ := find?_first hf
      have hspec : firstMatchSpec (c0 :: rest) vd.target c0 m :=
        Or.inl ⟨l1, l2, hsplit, hpm, hl1⟩
      have hreason : (agent_vote_validate (c0 :: rest) vd).reason = vd.reason := by
        unfold agent_vote_validate
        rw [if_neg (by simpa using hno)]
      refine ⟨?_, ?_, fun _ => by rw [hv]; exact hspec, ?_⟩
      · rw [hv]
        exact hmmem
      · have hcm : ((c0 :: rest).contains m) = true := by simpa using hmmem
        unfold orchInitialValidate
        rw [hv, hreason, if_pos hcm]
      · intro _ hne
        refine ⟨m, ?_, hmmem, hspec⟩
        unfold orchFinalValidate
        rw [if_neg (by simpa using hno), if_neg (by simpa using hne)]
        simp [hf]
    | none =>
      have hv : (agent_vote_validate (c0 :: rest) vd).target = c0 := by
        unfold agent_vote_validate
        rw [if_neg (by simpa using hno)]
        simp [hf]
      have hallno : ∀ c ∈ c0 :: rest, pyInStr c vd.target = false := by
        intro c hcmem
        have := List.find?_eq_none.mp hf c hcmem
        exact Bool.eq_false_iff.mpr this
      have hspec : firstMatchSpec (c0 :: rest) vd.target c0 c0 :=
        Or.inr ⟨hallno, rfl⟩
      have hreason : (agent_vote_validate (c0 :: rest) vd).reason = vd.reason := by
        unfold agent_vote_validate
        rw [if_neg (by simpa using hno)]
      refine ⟨?_, ?_, fun _ => by rw [hv]; exact hspec, ?_⟩
      · rw [hv]
        exact List.mem_cons_self _ _
      · have hcm : ((c0 :: rest).contains c0) = true := by simp
        unfold orchInitialValidate
        rw [hv, hreason, if_pos hcm]
      · intro _ hne
        refine ⟨c0, ?_, List.mem_cons_self _ _, hspec⟩
        unfold orchFinalValidate
        rw [if_neg (by simpa using hno), if_neg (by simpa using hne)]
        simp [hf]

/-- C5 amended witness: the two-match input resolves to the first match
"Ann" through the left disjunct. -/
theorem C5_first_substring_match_witness :
    (agent_vote_validate ["Carl", "Ann", "Anne"]
        { target := "ann or anne", reason := "r" }).target
      ∈ ["Carl", "Ann", "Anne"] ∧
    firstMatchSpec ["Carl", "Ann", "Anne"] "ann or anne" "Carl"
      (agent_vote_validate ["Carl", "Ann", "Anne"]
        { target := "ann or anne", reason := "r" }).target :=
  ⟨(C5_first_substring_match "Vera" ["Carl", "Ann", "Anne"]
      { target := "ann or anne", reason := "r" } "Carl" ["Ann", "Anne"] rfl).1,
   (C5_first_substring_match "Vera" ["Carl", "Ann", "Anne"]
      { target := "ann or anne", reason := "r" } "Carl" ["Ann", "Anne"] rfl).2.2.1
     (by decide)⟩

/-- C6 counterexample: a failed decision request during initial voting is
not treated as an abstention.  `generate_structured_response` swallows the
error into the default decision (empty target), the agent-side validation
turns it into the first candidate, and the orchestrator tallies a real
vote for Carl — the vote map contains an entry for the failed
participant. -/
theorem C6_failure_not_abstention_counterexample :
    exFailOracle.initialRaw 1 "Carl" = errorVoteDecision ∧
    dictGet? ((runInitialVotes exFailOracle 1 ["Ann", "Bob", "Carl"]).votes)
      "Carl" = some "Ann" ∧
    orchInitialValidate "Carl" ["Ann", "Bob"]
        (agent_vote_validate ["Ann", "Bob"] errorVoteDecision)
      = some ("Ann", "") := by
  refine ⟨rfl, by decide, by decide⟩

/-- C6 amended: how each phase really handles a failed decision request.
Night actions and discussion treat the failure as an abstention — an
errored response contributes nothing to the mafia consensus or to the
speaking candidates.  Initial and final voting instead resolve the
default empty decision to a deterministic fallback vote for the voter's
first candidate, so the failed participant still casts a vote; in every
phase the game continues. -/
theorem C6_failure_handling (x : String) (st : GameState) :
    (∀ (r1 r2 : List (String × Option NightDec)),
      mafiaNightAction (r1 ++ (x, none) :: r2) st
        = mafiaNightAction (r1 ++ r2) st) ∧
    (∀ (counts : List (String × Nat))
        (r1 r2 : List (String × Option DiscussionResponseE)),
      speakCands counts (r1 ++ (x, none) :: r2)
        = speakCands counts (r1 ++ r2)) ∧
    (∀ (voter c0 : String) (rest : List String),
      (∀ c ∈ c0 :: rest, c ≠ "") →
      orchInitialValidate voter (c0 :: rest)
          (agent_vote_validate (c0 :: rest) errorVoteDecision)
        = some (c0, "") ∧
      (voter ≠ "" →
        (orchFinalValidate voter (c0 :: rest) errorVoteDecision).1 = some c0)) := by
  refine ⟨?_, ?_, ?_⟩
  · intro r1 r2
    unfold mafiaNightAction
    have hp : proposalsOf (r1 ++ (x, none) :: r2) = proposalsOf (r1 ++ r2) := by
      unfold proposalsOf
      simp
    rw [hp]
  · intro counts r1 r2
    unfold speakCands
    simp
  · intro voter c0 rest hnonempty
    have hnm : ("" : String) ∉ c0 :: rest := fun hmem => hnonempty "" hmem rfl
    have hfind : (c0 :: rest).find? (fun c => pyInStr c "") = none := by
      rw [List.find?_eq_none]
      intro c hcmem
      have hcne : c ≠ "" := hnonempty c hcmem
      have hdata : (pyLower c).data ≠ [] := by
        intro hd
        apply hcne
        have hcd : c.data = [] := by
          simpa [pyLower] using hd
        cases c with
        | mk data =>
          simp only [String.data] at hcd
          subst hcd
          decide
      simp only [pyInStr]
      cases hdl : (pyLower c).data with
      | nil => exact absurd hdl hdata
      | cons a as => simp [pyLower, occursIn, hdl]
    have hval : (agent_vote_validate (c0 :: rest) errorVoteDecision) =
        { target := c0, reason := "" } := by
      unfold agent_vote_validate
      rw [if_neg (by simpa [errorVoteDecision] using hnm)]
      simp [errorVoteDecision, hfind]
    constructor
    · rw [hval]
      unfold orchInitialValidate
      rw [if_pos (by simp)]
    · intro hvne
      unfold orchFinalValidate
      rw [if_neg (by simpa [errorVoteDecision] using hnm)]
      rw [if_neg (by simpa [errorVoteDecision] using (Ne.symm hvne))]
      simp [errorVoteDecision, hfind]

/-- C6 amended witness: the three handling modes at concrete inputs. -/
theorem C6_failure_handling_witness :
    mafiaNightAction [("M1", some { target := "Vic" }), ("M2", none)]
        exMafiaState
      = mafiaNightAction [("M1", some { target := "Vic" })] exMafiaState ∧
    speakCands [] [("A", none)] = speakCands [] [] ∧
    orchInitialValidate "Carl" ["Ann", "Bob"]
        (agent_vote_validate ["Ann", "Bob"] errorVoteDecision)
      = some ("Ann", "") :=
  ⟨(C6_failure_handling "M2" exMafiaState).1
      [("M1", some { target := "Vic" })] [],
   (C6_failure_handling "A" exMafiaState).2.1 [] [] [],
   ((C6_failure_handling "Carl" exMafiaState).2.2 "Carl" "Ann" ["Bob"]
      (by decide)).1⟩

/-! ## Discussion fairness (C7) -/

/-- Each speaking candidate carries exactly the penalized urgency
`max(1, raw - 0.5 * speaking count)`. -/
theorem speakCands_adjusted (counts : List (String × Nat))
    (resps : List (String × Option DiscussionResponseE)) :
    ∀ e ∈ speakCands counts resps,
      e.2.2 = max 1 ((e.2.1.urgency : ℚ)
        - ((dictGetD counts e.1 0 : ℕ) : ℚ) * (1 / 2)) := by
  intro e he
  obtain ⟨a, _, hfa⟩ := List.mem_filterMap.mp he
  by_cases hs : a.2.speak = true
  · rw [if_pos hs] at hfa
    injection hfa with hfa
    subst hfa
    rfl
  · rw [if_neg hs] at hfa
    exact absurd hfa (by simp)

/-- C7 counterexample: with equal raw urgency 1, participant "A" who has
already spoken 5 times and participant "B" who has not spoken are both
clamped to the urgency floor 1; the random tie-break then ranks the
more-frequent speaker "A" above "B", contradicting "never ranked above". -/
theorem C7_fairness_floor_counterexample :
    rankSpeakers exC7Rnd (speakCands [("A", 5)]
        [("B", some { speak := true, comment := "hi", urgency := 1 }),
         ("A", some { speak := true, comment := "yo", urgency := 1 })])
      = [("A", { speak := true, comment := "yo", urgency := 1 }, 1),
         ("B", { speak := true, comment := "hi", urgency := 1 }, 1)] ∧
    dictGetD [("A", 5)] "A" 0 = 5 ∧
    dictGetD [("A", 5)] "B" 0 = 0 := by
  refine ⟨?_, by decide, by decide⟩
  have hAB : ¬ ("A" : String) = "B" := by decide
  have hBA : ¬ ("B" : String) = "A" := by decide
  norm_num [rankSpeakers, speakCands, List.insertionSort, List.orderedInsert,
    speakerRel, adjustedUrgency, dictGetD, exC7Rnd, max_def, hAB, hBA]

/-- C7 amended: the adjusted urgency is `max(1, raw − 0.5·count)`, and
among speaking candidates with equal raw urgency the one who has spoken
more is never ranked above one who has spoken fewer times **provided**
the fewer-speaker's penalized urgency still exceeds the floor of 1; at
the floor both are clamped to 1 and the order falls to the random
tie-break. -/
theorem C7_urgency_fairness (counts : List (String × Nat))
    (resps : List (String × Option DiscussionResponseE)) (rnd : String → ℚ) :
    (∀ e ∈ speakCands counts resps,
      e.2.2 = max 1 ((e.2.1.urgency : ℚ)
        - ((dictGetD counts e.1 0 : ℕ) : ℚ) * (1 / 2))) ∧
    (∀ (i j : Nat)
        (hi : i < (rankSpeakers rnd (speakCands counts resps)).length)
        (hj : j < (rankSpeakers rnd (speakCands counts resps)).length),
      ((rankSpeakers rnd (speakCands counts resps)).get ⟨i, hi⟩).2.1.urgency
        = ((rankSpeakers rnd (speakCands counts resps)).get ⟨j, hj⟩).2.1.urgency →
      dictGetD counts
          ((rankSpeakers rnd (speakCands counts resps)).get ⟨i, hi⟩).1 0
        < dictGetD counts
          ((rankSpeakers rnd (speakCands counts resps)).get ⟨j, hj⟩).1 0 →
      1 < ((rankSpeakers rnd (speakCands counts resps)).get ⟨i, hi⟩).2.2 →
      i < j) := by
  refine ⟨speakCands_adjusted counts resps, ?_⟩
  intro i j hi hj hurg hcnt hfloor
  have hperm := List.perm_insertionSort (speakerRel rnd) (speakCands counts resps)
  have hxmem : (rankSpeakers rnd (speakCands counts resps)).get ⟨i, hi⟩
      ∈ speakCands counts resps :=
    hperm.mem_iff.mp (List.get_mem _ _ _)
  have hymem : (rankSpeakers rnd (speakCands counts resps)).get ⟨j, hj⟩
      ∈ speakCands counts resps :=
    hperm.mem_iff.mp (List.get_mem _ _ _)
  have hax := speakCands_adjusted counts resps _ hxmem
  have hay := speakCands_adjusted counts resps _ hymem
  have huq : (((rankSpeakers rnd (speakCands counts resps)).get
        ⟨i, hi⟩).2.1.urgency : ℚ)
      = (((rankSpeakers rnd (speakCands counts resps)).get
        ⟨j, hj⟩).2.1.urgency : ℚ) := by
    exact_mod_cast congrArg (fun z : Int => (z : ℚ)) hurg
  have hcq : ((dictGetD counts ((rankSpeakers rnd (speakCands counts resps)).get
        ⟨i, hi⟩).1 0 : ℕ) : ℚ)
      < ((dictGetD counts ((rankSpeakers rnd (speakCands counts resps)).get
        ⟨j, hj⟩).1 0 : ℕ) : ℚ) := by
    exact_mod_cast hcnt
  have hx2 : ((rankSpeakers rnd (speakCands counts resps)).get ⟨i, hi⟩).2.2
      = (((rankSpeakers rnd (speakCands counts resps)).get
          ⟨i, hi⟩).2.1.urgency : ℚ)
        - ((dictGetD counts ((rankSpeakers rnd (speakCands counts resps)).get
          ⟨i, hi⟩).1 0 : ℕ) : ℚ) * (1 / 2) := by
    rw [hax] at hfloor ⊢
    have hgt : (1 : ℚ) < (((rankSpeakers rnd (speakCands counts resps)).get
          ⟨i, hi⟩).2.1.urgency : ℚ)
        - ((dictGetD counts ((rankSpeakers rnd (speakCands counts resps)).get
          ⟨i, hi⟩).1 0 : ℕ) : ℚ) * (1 / 2) := by
      by_contra hcon
      push_neg at hcon
      rw [max_eq_left hcon] at hfloor
      exact lt_irrefl _ hfloor
    exact max_eq_right (le_of_lt hgt)
  have hz : (1 : ℚ) < ((rankSpeakers rnd (speakCands counts resps)).get
      ⟨i, hi⟩).2.2 := hfloor
  rw [hx2] at hz
  have hyx : ((rankSpeakers rnd (speakCands counts resps)).get ⟨j, hj⟩).2.2
      < ((rankSpeakers rnd (speakCands counts resps)).get ⟨i, hi⟩).2.2 := by
    rw [hay, hx2]
    apply max_lt hz
    rw [← huq]
    have hmul : ((dictGetD counts ((rankSpeakers rnd
          (speakCands counts resps)).get ⟨i, hi⟩).1 0 : ℕ) : ℚ) * (1 / 2)
        < ((dictGetD counts ((rankSpeakers rnd
          (speakCands counts resps)).get ⟨j, hj⟩).1 0 : ℕ) : ℚ) * (1 / 2) := by
      apply mul_lt_mul_of_pos_right hcq
      norm_num
    linarith
  have hsorted := List.sorted_insertionSort (speakerRel rnd)
    (speakCands counts resps)
  rcases Nat.lt_trichotomy i j with h | h | h
  · exact h
  · exfalso
    have heq : ((rankSpeakers rnd (speakCands counts resps)).get ⟨i, hi⟩)
        = ((rankSpeakers rnd (speakCands counts resps)).get ⟨j, hj⟩) := by
      congr 1
      exact Fin.ext h
    rw [heq] at hyx
    exact lt_irrefl _ hyx
  · exfalso
    have hrel : speakerRel rnd
        ((rankSpeakers rnd (speakCands counts resps)).get ⟨j, hj⟩)
        ((rankSpeakers rnd (speakCands counts resps)).get ⟨i, hi⟩) :=
      hsorted.rel_get_of_lt (show (⟨j, hj⟩ : Fin _) < ⟨i, hi⟩ from h)
    rcases hrel with hrel | ⟨hrel, _⟩
    · exact absurd hrel (not_lt_of_lt hyx)
    · rw [hrel] at hyx
      exact lt_irrefl _ hyx

/-- C7 amended witness: with equal raw urgency 3, the never-spoken "B"
(adjusted 3, above the floor) is ranked strictly before the once-spoken
"A" (adjusted 5/2). -/
theorem C7_urgency_fairness_witness : (0 : Nat) < 1 :=
  (C7_urgency_fairness [("A", 1)]
      [("A", some { speak := true, comment := "a", urgency := 3 }),
       ("B", some { speak := true, comment := "b", urgency := 3 })]
      (fun _ => 0)).2 0 1
    (by
      have hAB : ¬ ("A" : String) = "B" := by decide
      have hBA : ¬ ("B" : String) = "A" := by decide
      norm_num [rankSpeakers, speakCands, List.insertionSort,
        List.orderedInsert, speakerRel, adjustedUrgency, dictGetD, max_def,
        hAB, hBA])
    (by
      have hAB : ¬ ("A" : String) = "B" := by decide
      have hBA : ¬ ("B" : String) = "A" := by decide
      norm_num [rankSpeakers, speakCands, List.insertionSort,
        List.orderedInsert, speakerRel, adjustedUrgency, dictGetD, max_def,
        hAB, hBA])
    (by
      have hAB : ¬ ("A" : String) = "B" := by decide
      have hBA : ¬ ("B" : String) = "A" := by decide
      norm_num [rankSpeakers, speakCands, List.insertionSort,
        List.orderedInsert, speakerRel, adjustedUrgency, dictGetD, max_def,
        hAB, hBA])
    (by
      have hAB : ¬ ("A" : String) = "B" := by decide
      have hBA : ¬ ("B" : String) = "A" := by decide
      norm_num [rankSpeakers, speakCands, List.insertionSort,
        List.orderedInsert, speakerRel, adjustedUrgency, dictGetD, max_def,
        hAB, hBA])
    (by
      have hAB : ¬ ("A" : String) = "B" := by decide
      have hBA : ¬ ("B" : String) = "A" := by decide
      norm_num [rankSpeakers, speakCands, List.insertionSort,
        List.orderedInsert, speakerRel, adjustedUrgency, dictGetD, max_def,
        hAB, hBA])

/-! ## Discussion termination (C8) -/

/-- Each guarded loop iteration strictly decreases the measure. -/
theorem discStep_measure_lt (o : DiscussionOracle) (rn mt : Nat)
    (st : DiscState) (hg : discGuard mt st = true) :
    discMeasure mt (discStep o rn st) < discMeasure mt st := by
  unfold discGuard at hg
  rw [Bool.and_eq_true, decide_eq_true_eq, decide_eq_true_eq] at hg
  obtain ⟨h1, h2⟩ := hg
  unfold discStep
  cases hr : rankSpeakers (o.rnd st.iter) (speakCands st.counts (o.resps st.iter)) with
  | nil =>
    unfold discMeasure
    simp only
    omega
  | cons hd tl =>
    obtain ⟨n, r, q⟩ := hd
    unfold discMeasure
    simp only
    omega

/-- A guarded iteration keeps the counters inside their bounds. -/
theorem discStep_invariant (o : DiscussionOracle) (rn mt : Nat)
    (st : DiscState) (hg : discGuard mt st = true) :
    (discStep o rn st).total_rounds ≤ mt ∧ (discStep o rn st).silent ≤ 3 := by
  unfold discGuard at hg
  rw [Bool.and_eq_true, decide_eq_true_eq, decide_eq_true_eq] at hg
  obtain ⟨h1, h2⟩ := hg
  unfold discStep
  cases hr : rankSpeakers (o.rnd st.iter) (speakCands st.counts (o.resps st.iter)) with
  | nil =>
    simp only
    omega
  | cons hd tl =>
    obtain ⟨n, r, q⟩ := hd
    simp only
    omega

/-- C8 counterexample: with one alive participant and a configured
budget of 1 round per participant (`max_total_rounds = 1 * 1 = 1`), the
phase runs **three** loop rounds — two silent, then one speaking — and
still appends a transcript message in the third round.  Under the claim's
stopping rule the phase would have stopped once the number of rounds
reached 1, so the code's budget counts only speaking rounds. -/
theorem C8_silent_rounds_counterexample :
    run_discussion_phase exC8Oracle ["A"] 1 1 10
      = some { iter := 3, total_rounds := 1, silent := 0, counts := [("A", 1)],
               transcript := [{ player_name := "A", comment := "hi",
                                round_number := 1 }] } ∧
    1 * (["A"] : List String).length = 1 := by
  exact ⟨by decide, by decide⟩

/-- C8 amended: the discussion loop always terminates — the measure
bounds the fuel it needs; it stops exactly at the first state where the
number of *speaking* rounds reaches `max rounds per participant × alive
participants` or the silence streak reaches 3 (silent rounds do not
consume the budget); and a phase in which nobody ever speaks ends after
exactly 3 silent iterations with an empty transcript. -/
theorem C8_discussion_termination (o : DiscussionOracle)
    (roundNum mt : Nat) :
    (∀ (fuel : Nat) (st : DiscState), discMeasure mt st < fuel →
      (discLoop o roundNum mt fuel st).isSome = true) ∧
    (∀ (fuel : Nat) (st st' : DiscState),
      st.total_rounds ≤ mt → st.silent ≤ 3 →
      discLoop o roundNum mt fuel st = some st' →
      (st'.total_rounds = mt ∨ st'.silent = 3) ∧
      ∃ k, st' = (discStep o roundNum)^[k] st ∧
        ∀ j < k, discGuard mt ((discStep o roundNum)^[j] st) = true) ∧
    (∀ (alive : List String),
      (∀ (i : Nat), ∀ nr ∈ o.resps i,
        (nr.2.map (fun r => r.speak)).getD false = false) →
      0 < mt →
      discLoop o roundNum mt 4 (initDiscState alive)
        = some { initDiscState alive with iter := 3, silent := 3 }) := by
  have hrw : ∀ (f : Nat) (st : DiscState),
      discLoop o roundNum mt (Nat.succ f) st
        = if discGuard mt st then discLoop o roundNum mt f (discStep o roundNum st)
          else some st := fun f st => rfl
  refine ⟨?_, ?_, ?_⟩
  · intro fuel
    induction fuel with
    | zero =>
      intro st h
      exact absurd h (Nat.not_lt_zero _)
    | succ fuel ih =>
      intro st h
      rw [hrw]
      by_cases hg : discGuard mt st = true
      · rw [if_pos hg]
        apply ih
        have := discStep_measure_lt o roundNum mt st hg
        omega
      · rw [if_neg hg]
        rfl
  · intro fuel
    induction fuel with
    | zero =>
      intro st st' _ _ h
      exact absurd h (by simp [discLoop])
    | succ fuel ih =>
      intro st st' h1 h2 h
      rw [hrw] at h
      by_cases hg : discGuard mt st = true
      · rw [if_pos hg] at h
        have hinv := discStep_invariant o roundNum mt st hg
        obtain ⟨hstop, k, hk, hguards⟩ := ih (discStep o roundNum st) st'
          hinv.1 hinv.2 h
        refine ⟨hstop, k + 1, ?_, ?_⟩
        · rw [hk, ← Function.iterate_succ_apply]
        · intro j hj
          cases j with
          | zero => simpa using hg
          | succ j =>
            rw [Function.iterate_succ_apply]
            exact hguards j (by omega)
      · rw [if_neg hg] at h
        injection h with h
        subst h
        constructor
        · unfold discGuard at hg
          rw [Bool.and_eq_true] at hg
          simp only [decide_eq_true_eq] at hg
          have : ¬ (st.total_rounds < mt) ∨ ¬ (st.silent < 3) := by
            by_contra hcon
            push_neg at hcon
            exact hg ⟨hcon.1, hcon.2⟩
          omega
        · exact ⟨0, rfl, fun j hj => absurd hj (Nat.not_lt_zero j)⟩
  · intro alive hnospeak hmt
    have hempty : ∀ (cs : List (String × Nat)) (i : Nat),
        speakCands cs (o.resps i) = [] := by
      intro cs i
      unfold speakCands
      rw [List.filterMap_eq_nil_iff]
      intro a ha
      obtain ⟨nr, hnr, hmap⟩ := List.mem_filterMap.mp ha
      cases hdec : nr.2 with
      | none => rw [hdec] at hmap; exact absurd hmap (by simp)
      | some r =>
        rw [hdec] at hmap
        have hspeak := hnospeak i nr hnr
        rw [hdec] at hspeak
        simp at hspeak
        injection hmap with hmap
        rw [← hmap]
        have hs2 : ((nr.1, r) : String × DiscussionResponseE).2.speak = false :=
          hspeak
        simp [hs2]
        exact hspeak
    have hstepSil : ∀ st : DiscState,
        discStep o roundNum st
          = { st with iter := st.iter + 1, silent := st.silent + 1 } := by
      intro st
      unfold discStep
      rw [hempty st.counts st.iter]
      rfl
    have hg0 : discGuard mt (initDiscState alive) = true := by
      simp [discGuard, initDiscState, hmt]
    have hg1 : discGuard mt (discStep o roundNum (initDiscState alive)) = true := by
      rw [hstepSil]
      simp [discGuard, initDiscState, hmt]
    have hg2 : discGuard mt (discStep o roundNum (discStep o roundNum
        (initDiscState alive))) = true := by
      rw [hstepSil, hstepSil]
      simp [discGuard, initDiscState, hmt]
    have hg3 : ¬ (discGuard mt (discStep o roundNum (discStep o roundNum
        (discStep o roundNum (initDiscState alive)))) = true) := by
      rw [hstepSil, hstepSil, hstepSil]
      simp [discGuard, initDiscState]
    rw [show (4 : Nat) = Nat.succ 3 from rfl, hrw, if_pos hg0,
      show (3 : Nat) = Nat.succ 2 from rfl, hrw, if_pos hg1,
      show (2 : Nat) = Nat.succ 1 from rfl, hrw, if_pos hg2,
      show (1 : Nat) = Nat.succ 0 from rfl, hrw, if_neg hg3]
    rw [hstepSil, hstepSil, hstepSil]
    rfl

/-- C8 amended witness: a concrete all-silent phase terminates after
exactly three silent iterations with an empty transcript, and the
stopping-state characterization holds for its run. -/
theorem C8_discussion_termination_witness :
    discLoop exSilentOracle 1 2 4 (initDiscState ["A", "B"])
      = some { initDiscState ["A", "B"] with iter := 3, silent := 3 } ∧
    (discLoop exSilentOracle 1 2 12 (initDiscState ["A", "B"])).isSome = true :=
  ⟨(C8_discussion_termination exSilentOracle 1 2).2.2 ["A", "B"]
      (fun i =>
        (by decide :
          ∀ nr ∈ ([("A", none),
              ("B", some { speak := false, comment := "", urgency := 2 })] :
              List (String × Option DiscussionResponseE)),
            (nr.2.map (fun r => r.speak)).getD false = false))
      (by decide),
   (C8_discussion_termination exSilentOracle 1 2).1 12 (initDiscState ["A", "B"])
      (by decide)⟩

/-- C3 counterexample: in sub-round 1 the initial vote singles out "D"
and the final vote after the defense ties ("B" and "C" with 2 votes
each).  Contrary to the claim, the sub-round records nothing in the
voting history, does not end the day, and the phase proceeds to
sub-round 2, which eliminates "D". -/
theorem C3_final_tie_counterexample :
    (run_voting_sub_round exC3Oracle ["A", "B", "C", "D"] 1 exVoteState).2
      = false ∧
    (run_voting_sub_round exC3Oracle ["A", "B", "C", "D"] 1
        exVoteState).1.voting_history = [] ∧
    (run_voting_sub_round exC3Oracle ["A", "B", "C", "D"] 1
        exVoteState).1.vote_counts = [("B", 2), ("C", 2)] ∧
    (run_voting_phase exC3Oracle exVoteState).elimination_history = ["D"] := by
  exact ⟨by decide, by decide, by decide, by decide⟩

/-- A list of tied max-holders forces a non-empty tally. -/
theorem counts_ne_nil_of_maxHolders {counts : List (String × Nat)}
    {l : List String} (h : maxHolders counts = l) (hne : l ≠ []) :
    counts ≠ [] := by
  intro hnil
  rw [hnil] at h
  simp [maxHolders] at h
  exact hne h

/-- A final vote whose tally has two or more max-holders eliminates
nobody, and touches neither the voting history nor the elimination
history nor the day counter. -/
theorem run_final_voting_tie (o : VoteOracle) (vr : Nat) (suspect : String)
    (alive : List String) (vrd : VotingRoundRec) (st : GameState)
    (hflen : 2 ≤ (maxHolders (runFinalVotes o vr alive).counts).length) :
    (run_final_voting o vr suspect alive vrd st).2.2 = none ∧
    (run_final_voting o vr suspect alive vrd st).1.voting_history
      = st.voting_history ∧
    (run_final_voting o vr suspect alive vrd st).1.elimination_history
      = st.elimination_history ∧
    (run_final_voting o vr suspect alive vrd st).1.round_number
      = st.round_number := by
  have hne : (runFinalVotes o vr alive).counts ≠ [] := by
    apply counts_ne_nil_of_maxHolders rfl
    intro hnil
    rw [hnil] at hflen
    simp at hflen
  unfold run_final_voting
  dsimp only
  rw [if_neg hne]
  split
  · next e heq =>
    rw [heq] at hflen
    simp at hflen
  · next =>
    exact ⟨rfl, by simp [reset_votes], by simp [reset_votes], by simp [reset_votes]⟩

/-- An initial vote with two or more tied max-holders appends exactly the
tie record and continues to the next sub-round unless the cap of 3 is
reached. -/
theorem voting_sub_round_initial_tie (o : VoteOracle) (alive : List String)
    (vr : Nat) (st : GameState)
    (hlen : 2 ≤ (maxHolders (runInitialVotes o vr alive).counts).length) :
    (run_voting_sub_round o alive vr st).1.voting_history
      = st.voting_history ++ [tieRec o alive vr st.round_number] ∧
    (run_voting_sub_round o alive vr st).1.elimination_history
      = st.elimination_history ∧
    (run_voting_sub_round o alive vr st).1.round_number = st.round_number ∧
    (run_voting_sub_round o alive vr st).2 = (vr == 3) := by
  have hne : (runInitialVotes o vr alive).counts ≠ [] := by
    apply counts_ne_nil_of_maxHolders rfl
    intro hnil
    rw [hnil] at hlen
    simp at hlen
  unfold run_voting_sub_round
  dsimp only
  rw [if_neg hne]
  split
  · next s heq =>
    rw [heq] at hlen
    simp at hlen
  · next =>
    refine ⟨?_, ?_, ?_, rfl⟩
    · simp [reset_votes, tieRec]
    · simp [reset_votes]
    · simp [reset_votes]

/-- A sub-round whose initial vote singles out a suspect but whose final
vote ties: no elimination, nothing recorded, the loop continues. -/
theorem voting_sub_round_final_tie (o : VoteOracle) (alive : List String)
    (vr : Nat) (st : GameState) (suspect : String)
    (hsus : maxHolders (runInitialVotes o vr alive).counts = [suspect])
    (hflen : 2 ≤ (maxHolders (runFinalVotes o vr alive).counts).length) :
    (run_voting_sub_round o alive vr st).2 = false ∧
    (run_voting_sub_round o alive vr st).1.voting_history
      = st.voting_history ∧
    (run_voting_sub_round o alive vr st).1.elimination_history
      = st.elimination_history ∧
    (run_voting_sub_round o alive vr st).1.round_number = st.round_number := by
  have hne : (runInitialVotes o vr alive).counts ≠ [] :=
    counts_ne_nil_of_maxHolders hsus (by simp)
  unfold run_voting_sub_round
  dsimp only
  rw [if_neg hne]
  split
  · next s heq =>
    have hs : s = suspect := by
      rw [heq] at hsus
      simpa using hsus
    subst hs
    rw [(run_final_voting_tie o vr s alive _ _ hflen).1]
    dsimp only
    refine ⟨rfl, ?_, ?_, ?_⟩
    · rw [(run_final_voting_tie o vr s alive _ _ hflen).2.1]
      simp [reset_votes]
    · rw [(run_final_voting_tie o vr s alive _ _ hflen).2.2.1]
      simp [reset_votes]
    · rw [(run_final_voting_tie o vr s alive _ _ hflen).2.2.2]
      simp [reset_votes]
  · next hnotone =>
    exact absurd hsus (hnotone suspect)

/-- C3: ties in the voting state machine.  An initial-vote tie is
recorded and leads to the next sub-round up to the cap of 3; three
successive initial ties end the day with no elimination and exactly
three tie records in order; a final-vote tie after a defense eliminates
nobody but — correcting the claim — is *not* recorded and does *not* end
the day: the loop proceeds to the next sub-round. -/
theorem C3_voting_tie_machine (o : VoteOracle) (alive : List String)
    (vr : Nat) (st : GameState) :
    (2 ≤ (maxHolders (runInitialVotes o vr alive).counts).length →
      (run_voting_sub_round o alive vr st).1.voting_history
        = st.voting_history ++ [tieRec o alive vr st.round_number] ∧
      (run_voting_sub_round o alive vr st).1.elimination_history
        = st.elimination_history ∧
      (run_voting_sub_round o alive vr st).2 = (vr == 3)) ∧
    (∀ suspect, maxHolders (runInitialVotes o vr alive).counts = [suspect] →
      2 ≤ (maxHolders (runFinalVotes o vr alive).counts).length →
      (run_voting_sub_round o alive vr st).2 = false ∧
      (run_voting_sub_round o alive vr st).1.voting_history
        = st.voting_history ∧
      (run_voting_sub_round o alive vr st).1.elimination_history
        = st.elimination_history) ∧
    (2 ≤ (maxHolders (runInitialVotes o 1 alive).counts).length →
     2 ≤ (maxHolders (runInitialVotes o 2 alive).counts).length →
     2 ≤ (maxHolders (runInitialVotes o 3 alive).counts).length →
      (votingRoundsLoop o alive 3 1 st).voting_history
        = st.voting_history ++
          [tieRec o alive 1 st.round_number, tieRec o alive 2 st.round_number,
           tieRec o alive 3 st.round_number] ∧
      (votingRoundsLoop o alive 3 1 st).elimination_history
        = st.elimination_history) := by
  refine ⟨?_, ?_, ?_⟩
  · intro hlen
    obtain ⟨h1, h2, _, h4⟩ := voting_sub_round_initial_tie o alive vr st hlen
    exact ⟨h1, h2, h4⟩
  · intro suspect hsus hflen
    obtain ⟨h1, h2, h3, _⟩ :=
      voting_sub_round_final_tie o alive vr st suspect hsus hflen
    exact ⟨h1, h2, h3⟩
  · intro h1 h2 h3
    obtain ⟨ha1, hb1, hc1, hd1⟩ := voting_sub_round_initial_tie o alive 1 st h1
    obtain ⟨ha2, hb2, hc2, hd2⟩ :=
      voting_sub_round_initial_tie o alive 2 (run_voting_sub_round o alive 1 st).1 h2
    obtain ⟨ha3, hb3, hc3, hd3⟩ :=
      voting_sub_round_initial_tie o alive 3
        ((run_voting_sub_round o alive 2 (run_voting_sub_round o alive 1 st).1).1) h3
    have hd1' : (run_voting_sub_round o alive 1 st).2 = false := hd1
    have hd2' : (run_voting_sub_round o alive 2
        (run_voting_sub_round o alive 1 st).1).2 = false := hd2
    have hd3' : (run_voting_sub_round o alive 3
        (run_voting_sub_round o alive 2
          (run_voting_sub_round o alive 1 st).1).1).2 = true := hd3
    have hs1 : votingRoundsLoop o alive 3 1 st
        = if (run_voting_sub_round o alive 1 st).2 = true
          then (run_voting_sub_round o alive 1 st).1
          else votingRoundsLoop o alive 2 2
            (run_voting_sub_round o alive 1 st).1 := rfl
    have hs2 : votingRoundsLoop o alive 2 2 (run_voting_sub_round o alive 1 st).1
        = if (run_voting_sub_round o alive 2
              (run_voting_sub_round o alive 1 st).1).2 = true
          then (run_voting_sub_round o alive 2
            (run_voting_sub_round o alive 1 st).1).1
          else votingRoundsLoop o alive 1 3
            (run_voting_sub_round o alive 2
              (run_voting_sub_round o alive 1 st).1).1 := rfl
    have hs3 : votingRoundsLoop o alive 1 3
        (run_voting_sub_round o alive 2
          (run_voting_sub_round o alive 1 st).1).1
        = if (run_voting_sub_round o alive 3
              (run_voting_sub_round o alive 2
                (run_voting_sub_round o alive 1 st).1).1).2 = true
          then (run_voting_sub_round o alive 3
            (run_voting_sub_round o alive 2
              (run_voting_sub_round o alive 1 st).1).1).1
          else votingRoundsLoop o alive 0 4
            (run_voting_sub_round o alive 3
              (run_voting_sub_round o alive 2
                (run_voting_sub_round o alive 1 st).1).1).1 := rfl
    have hloop : votingRoundsLoop o alive 3 1 st
        = (run_voting_sub_round o alive 3
            (run_voting_sub_round o alive 2
              (run_voting_sub_round o alive 1 st).1).1).1 := by
      rw [hs1, hd1', if_neg Bool.false_ne_true, hs2, hd2',
        if_neg Bool.false_ne_true, hs3, hd3', if_pos rfl]
    rw [hloop]
    constructor
    · rw [ha3, hc2, ha2, hc1, ha1]
      simp
    · rw [hb3, hb2, hb1]

/-- C3 witness: the three-round all-tie scenario on a concrete oracle
ends the day with no elimination and exactly the three tie records. -/
theorem C3_voting_tie_machine_witness :
    (votingRoundsLoop exTieOracle ["A", "B"] 3 1 exTieState).voting_history
      = exTieState.voting_history ++
        [tieRec exTieOracle ["A", "B"] 1 exTieState.round_number,
         tieRec exTieOracle ["A", "B"] 2 exTieState.round_number,
         tieRec exTieOracle ["A", "B"] 3 exTieState.round_number] ∧
    (votingRoundsLoop exTieOracle ["A", "B"] 3 1 exTieState).elimination_history
      = exTieState.elimination_history :=
  (C3_voting_tie_machine exTieOracle ["A", "B"] 1 exTieState).2.2
    (by decide) (by decide) (by decide)

end Mafia
